import Mathlib

/-!
Shallow embedding of the odc-sync-wrapper benchmarking harness, centred on
`benchmarking-async/core/async_tester.py` (the submit-then-poll engine and its
metrics aggregation), `benchmarking-async/sweeps/file_size_sweep.py` (the
sweep-level reduction) and `benchmarking/core/load_tester.py` (the synchronous
tester's throughput computation).

Modelling conventions:
- Python floats are modelled as `ℚ`; wall-clock instants are rational numbers
  supplied by the environment.  `time.time()` values are threaded explicitly
  as a clock.
- The HTTP world is an explicit environment: each batch is given the outcome
  of its one submission request and a stream of poll-attempt outcomes.
- Python exceptions that escape a function are modelled with
  `Except String`; exceptions that the source catches locally are ordinary
  branches.
- Python truthiness of strings (`if state:` is false for `None` and `""`)
  is modelled by `pyTruthy`.
- `str.lower()` is modelled by `pyLower` (character-wise lowering), and
  Python `int()` (truncation toward zero) by `pyInt`.
-/

/-- Python truthiness of an optional string: `None` and `""` are falsy. -/
def pyTruthy : Option String → Bool
  | none => false
  | some s => decide (s ≠ "")

/-- Python `str.lower()`, modelled character-wise. -/
def pyLower (s : String) : String := String.mk (s.data.map Char.toLower)

/-- Python `int()` on a rational: truncation toward zero. -/
def pyInt (x : ℚ) : Int := if 0 ≤ x then ⌊x⌋ else ⌈x⌉

/-- Python list indexing `l[i]`: negative indices count from the end;
an index out of range is an `IndexError`, modelled as `none`. -/
def pyGetItem (l : List ℚ) (i : Int) : Option ℚ :=
  let j : Int := if i < 0 then (l.length : Int) + i else i
  if j < 0 then none else l.get? j.toNat

/-- Python `min` over a nonempty list, seeded with the first element. -/
def pyMin (a : ℚ) (l : List ℚ) : ℚ := l.foldl min a

/-- Python `max` over a nonempty list, seeded with the first element. -/
def pyMax (a : ℚ) (l : List ℚ) : ℚ := l.foldl max a

/-- `_calculate_percentile` from `async_tester.py` (lines 21-28):
empty input yields `0.0`; otherwise sort ascending, take index
`int(len * percentile / 100)` capped above by `len - 1`, and index the
sorted list with Python indexing semantics (`none` models an
`IndexError`, reachable only for negative percentiles). -/
def _calculate_percentile (values : List ℚ) (percentile : ℚ) : Option ℚ :=
  if values.isEmpty then some 0
  else
    let sorted_values := values.insertionSort (· ≤ ·)
    let index : Int := pyInt ((sorted_values.length : ℚ) * percentile / 100)
    pyGetItem sorted_values (min index ((sorted_values.length : Int) - 1))

/-- The fields of `AsyncTestConfig` (`core/models.py`) that the embedded
logic reads.  Connection fields (server url, token, datasource id, ssl flag)
and `samples_dir`/`repeat` only shape I/O and sample loading and are omitted;
samples are passed to `run` directly. -/
structure AsyncTestConfig where
  files_per_request : Nat
  concurrency : Nat
  job_timeout_seconds : Nat
  poll_interval_seconds : Nat

/-- `AsyncTestConfig.is_sequential`: concurrency 1 means sequential mode. -/
def AsyncTestConfig.is_sequential (cfg : AsyncTestConfig) : Bool :=
  cfg.concurrency == 1

/-- `JobResult` from `core/models.py`. -/
structure JobResult where
  job_id : Option String
  batch_id : Nat
  file_count : Nat
  file_size_bytes : Nat
  submit_start : ℚ
  submit_end : ℚ
  submit_latency_ms : ℚ
  job_start : ℚ
  job_end : ℚ
  job_duration_seconds : ℚ
  poll_count : Nat
  final_state : String
  success : Bool
  error_message : Option String
  deriving DecidableEq, Repr

/-- `AsyncTester.FINISHED_STATES`. -/
def FINISHED_STATES : List String := ["finished", "completed", "successful", "done"]

/-- `AsyncTester.FAILED_STATES`. -/
def FAILED_STATES : List String := ["failed", "cancelled"]

/-- Result of parsing the submission response body: `json.loads` may raise
(also covering a parsed body that is not a dict, where `.get` raises —
both are caught by the same `except` and become PARSE_ERROR), or it yields
a dict whose `"id"` lookup gives `None` (absent or null) or a string. -/
inductive SubmitBody where
  | unparseable (msg : String)
  | parsed (id : Option String)
  deriving DecidableEq, Repr

/-- Outcome of the one submission request of a batch: either the
`session.post` (or the multipart build, e.g. a file `open`) raises — which
`_submit_batch` does NOT catch — or an HTTP response with a status and a
body arrives. -/
inductive SubmitOutcome where
  | raised (msg : String)
  | response (status : Nat) (body : SubmitBody)
  deriving DecidableEq, Repr

/-- Outcome of one poll attempt: the `session.get` raises (caught at
line 323 of `async_tester.py`), or a response arrives with a status and a
body; a 200 body either fails `json.loads` or yields the state extracted by
the four-path lookup (`state` / `job.state` / `status` / `jobState`),
`none` when every path is absent or null. -/
inductive PollBody where
  | unparseable
  | parsed (state : Option String)
  deriving DecidableEq, Repr

inductive PollAttempt where
  | transportError (msg : String)
  | response (status : Nat) (body : PollBody)
  deriving DecidableEq, Repr

/-- `AsyncTester._submit_batch` (lines 81-205).  Inputs: the submission
outcome supplied by the environment, the batch identity and sizes, the
clock at `submit_start`, and the environment-chosen duration of the
request.  Returns the `JobResult` and the clock at return
(`submit_end`), or propagates a raised exception.  Every path records
`submit_latency_ms = (submit_end - submit_start) * 1000`. -/
def _submit_batch (outcome : SubmitOutcome) (batch_id file_count file_size_bytes : Nat)
    (submit_start submit_dur : ℚ) : Except String (JobResult × ℚ) :=
  let submit_end := submit_start + submit_dur
  let submit_latency_ms := (submit_end - submit_start) * 1000
  match outcome with
  | .raised msg => .error msg
  | .response status body =>
    if status ≠ 202 then
      .ok ({ job_id := none
             batch_id := batch_id
             file_count := file_count
             file_size_bytes := file_size_bytes * file_count
             submit_start := submit_start
             submit_end := submit_end
             submit_latency_ms := submit_latency_ms
             job_start := submit_end
             job_end := submit_end
             job_duration_seconds := 0
             poll_count := 0
             final_state := "SUBMIT_FAILED"
             success := false
             error_message := some ("HTTP " ++ toString status) }, submit_end)
    else
      match body with
      | .parsed id =>
        .ok ({ job_id := id
               batch_id := batch_id
               file_count := file_count
               file_size_bytes := file_size_bytes * file_count
               submit_start := submit_start
               submit_end := submit_end
               submit_latency_ms := submit_latency_ms
               job_start := submit_end
               job_end := 0
               job_duration_seconds := 0
               poll_count := 0
               final_state := "SUBMITTED"
               success := false
               error_message := none }, submit_end)
      | .unparseable msg =>
        .ok ({ job_id := none
               batch_id := batch_id
               file_count := file_count
               file_size_bytes := file_size_bytes * file_count
               submit_start := submit_start
               submit_end := submit_end
               submit_latency_ms := submit_latency_ms
               job_start := submit_end
               job_end := submit_end
               job_duration_seconds := 0
               poll_count := 0
               final_state := "PARSE_ERROR"
               success := false
               error_message := some msg }, submit_end)

/-- The body of the `for _ in range(max_attempts)` loop of
`AsyncTester._poll_until_complete` (lines 255-339), fuelled by the number of
remaining attempts.  Arguments after the stream: remaining attempts, index
into the attempt stream, `poll_count`, `last_state`, `last_state_time`,
current clock.  Each attempt consumes one unit of fuel; every non-terminal
path sleeps `poll_interval_seconds` once.  Fuel exhausted is the timeout
epilogue (lines 328-339). -/
def poll_loop (cfg : AsyncTestConfig) (attempts : Nat → PollAttempt)
    (jr : JobResult) (job_start : ℚ) :
    Nat → Nat → Nat → Option String → ℚ → ℚ → JobResult × ℚ
  | 0, _, poll_count, _, _, now =>
    ({ jr with
       job_end := now
       job_duration_seconds := now - job_start
       poll_count := poll_count
       final_state := "TIMEOUT"
       success := false
       error_message :=
         some ("Timed out after " ++ toString cfg.job_timeout_seconds ++ "s") }, now)
  | fuel + 1, k, poll_count, last_state, last_state_time, now =>
    let pc := poll_count + 1
    let sleep := now + (cfg.poll_interval_seconds : ℚ)
    match attempts k with
    | .transportError _ =>
      poll_loop cfg attempts jr job_start fuel (k + 1) pc last_state last_state_time sleep
    | .response status body =>
      if status ≠ 200 then
        poll_loop cfg attempts jr job_start fuel (k + 1) pc last_state last_state_time sleep
      else
        match body with
        | .unparseable =>
          poll_loop cfg attempts jr job_start fuel (k + 1) pc last_state last_state_time sleep
        | .parsed st =>
          if pyTruthy st then
            let changed := decide (st ≠ last_state)
            let ls : Option String := if changed then st else last_state
            let lst : ℚ := if changed then now else last_state_time
            let s := st.getD ""
            if pyLower s ∈ FINISHED_STATES then
              ({ jr with
                 job_end := now
                 job_duration_seconds := now - job_start
                 poll_count := pc
                 final_state := s
                 success := true }, now)
            else if pyLower s ∈ FAILED_STATES then
              ({ jr with
                 job_end := now
                 job_duration_seconds := now - job_start
                 poll_count := pc
                 final_state := s
                 success := false
                 error_message := some ("Job ended with state: " ++ s) }, now)
            else
              poll_loop cfg attempts jr job_start fuel (k + 1) pc ls lst sleep
          else
            poll_loop cfg attempts jr job_start fuel (k + 1) pc last_state last_state_time sleep

/-- `max_attempts = int(job_timeout_seconds / poll_interval_seconds)`
(line 251); for positive integer inputs Python's float division followed by
`int()` is the floor, i.e. natural division. -/
def max_attempts (cfg : AsyncTestConfig) : Nat :=
  cfg.job_timeout_seconds / cfg.poll_interval_seconds

/-- `AsyncTester._poll_until_complete` (lines 226-339): a falsy
(`None` or empty) `job_id` returns the submission result untouched with no
poll attempt; otherwise run the attempt loop starting with no observed
state. -/
def _poll_until_complete (cfg : AsyncTestConfig) (attempts : Nat → PollAttempt)
    (jr : JobResult) (now : ℚ) : JobResult × ℚ :=
  if pyTruthy jr.job_id then
    poll_loop cfg attempts jr now (max_attempts cfg) 0 0 none now now
  else
    (jr, now)

/-- The per-batch slice of the environment: the submission outcome, the
wall-clock duration of the submission request, and the stream of poll
attempt outcomes. -/
structure BatchEnv where
  submit : SubmitOutcome
  submit_dur : ℚ
  polls : Nat → PollAttempt

/-- `AsyncTester._run_batch_with_polling` (lines 341-350): submit, then
poll.  An exception escaping `_submit_batch` propagates. -/
def _run_batch_with_polling (cfg : AsyncTestConfig) (env : BatchEnv)
    (batch_id file_count file_size_bytes : Nat) (clock : ℚ) :
    Except String (JobResult × ℚ) :=
  match _submit_batch env.submit batch_id file_count file_size_bytes clock env.submit_dur with
  | .error e => .error e
  | .ok (jr, c) => .ok (_poll_until_complete cfg env.polls jr c)

/-- The batching of `AsyncTester.run` (lines 366-369):
`samples[i:i+files_per_request]` for `i` in steps of `files_per_request`.
A step of 0 raises in Python; it is unreachable (`files_per_request ≥ 1`)
and modelled as producing no batches. -/
def mkBatchesAux (k : Nat) : Nat → List String → List (List String)
  | 0, _ => []
  | _, [] => []
  | fuel + 1, a :: as =>
    if k = 0 then []
    else (a :: as).take k :: mkBatchesAux k fuel ((a :: as).drop k)

def mkBatches (k : Nat) (samples : List String) : List (List String) :=
  mkBatchesAux k samples.length samples

/-- `enumerate(batches, 1)`. -/
def enumFrom (i : Nat) : List (List String) → List (Nat × List String)
  | [] => []
  | b :: bs => (i, b) :: enumFrom (i + 1) bs

/-- Sequential scheduling (lines 388-393): one batch fully completes
(submit then poll) before the next starts; the clock threads through, and
the first exception aborts the loop (there is no handler in `run`). -/
def run_units_seq (cfg : AsyncTestConfig) (envs : Nat → BatchEnv) (file_size_bytes : Nat) :
    List (Nat × List String) → ℚ → Except String (List JobResult × ℚ)
  | [], clock => .ok ([], clock)
  | (bid, batch) :: rest, clock =>
    match _run_batch_with_polling cfg (envs bid) bid batch.length file_size_bytes clock with
    | .error e => .error e
    | .ok (r, c) =>
      match run_units_seq cfg envs file_size_bytes rest c with
      | .error e => .error e
      | .ok (rs, c') => .ok (r :: rs, c')

/-- Bounded-parallel scheduling (lines 394-407): one task per batch, results
collected by `asyncio.gather` in task (= batch) order; `gather` is used
without `return_exceptions`, so an exception raised inside any unit
propagates to `run` and no result list is produced.  The semaphore only
staggers start times and is not modelled; each unit is given the common
start clock. -/
def run_units_par (cfg : AsyncTestConfig) (envs : Nat → BatchEnv) (file_size_bytes : Nat) :
    List (Nat × List String) → ℚ → Except String (List JobResult)
  | [], _ => .ok []
  | (bid, batch) :: rest, clock =>
    match _run_batch_with_polling cfg (envs bid) bid batch.length file_size_bytes clock with
    | .error e => .error e
    | .ok (r, _) =>
      match run_units_par cfg envs file_size_bytes rest clock with
      | .error e => .error e
      | .ok rs => .ok (r :: rs)

/-- `AsyncTester.run` (lines 352-417), scheduling part: chunk the samples
into batches, number them from 1, and dispatch sequentially or in
bounded-parallel mode.  Returns the `job_results` list, or the exception
that aborted the run. -/
def AsyncTester_run (cfg : AsyncTestConfig) (envs : Nat → BatchEnv)
    (samples : List String) (file_size_bytes : Nat) (clock0 : ℚ) :
    Except String (List JobResult) :=
  let batches := enumFrom 1 (mkBatches cfg.files_per_request samples)
  if cfg.is_sequential then
    match run_units_seq cfg envs file_size_bytes batches clock0 with
    | .error e => .error e
    | .ok (rs, _) => .ok rs
  else
    run_units_par cfg envs file_size_bytes batches clock0

/-- The numeric fields of `AsyncTestResult` (`core/models.py`); the string
labels (`samples_dir`, `file_size_label`) and raw-result echo are omitted. -/
structure AsyncTestResult where
  files_per_request : Nat
  concurrency : Nat
  file_size_bytes : Nat
  total_files : Nat
  total_jobs : Nat
  successful_jobs : Nat
  failed_jobs : Nat
  timed_out_jobs : Nat
  submit_avg_ms : ℚ
  submit_min_ms : ℚ
  submit_max_ms : ℚ
  submit_p95_ms : ℚ
  submit_p99_ms : ℚ
  job_avg_seconds : ℚ
  job_min_seconds : ℚ
  job_max_seconds : ℚ
  job_p95_seconds : ℚ
  job_p99_seconds : ℚ
  avg_poll_count : ℚ
  total_polls : Nat
  throughput_files_per_second : ℚ
  throughput_mb_per_second : ℚ
  error_rate : ℚ
  total_duration_seconds : ℚ
  deriving DecidableEq, Repr

/-- Successful jobs: `[r for r in job_results if r.success]` (line 431). -/
def successfulJobs (job_results : List JobResult) : List JobResult :=
  job_results.filter (·.success)

/-- Failed jobs: not successful and not in the timeout state (line 432). -/
def failedJobs (job_results : List JobResult) : List JobResult :=
  job_results.filter (fun r => !r.success && !(r.final_state == "TIMEOUT"))

/-- Timed-out jobs: `final_state == "TIMEOUT"` (line 433); the spec calls
this terminal classification TIMED_OUT. -/
def timedOutJobs (job_results : List JobResult) : List JobResult :=
  job_results.filter (fun r => r.final_state == "TIMEOUT")

/-- `AsyncTester._calculate_results` (lines 419-503).  `total_duration` is
`(end_time - start_time).total_seconds()`, the wall clock of the whole run.
The percentile helper returns `none` only for a negative percentile, which
the callers (95, 99) never pass; `.getD 0` keeps the definition total. -/
def _calculate_results (cfg : AsyncTestConfig) (job_results : List JobResult)
    (total_duration : ℚ) (file_size_bytes : Nat) (total_files : Nat) : AsyncTestResult :=
  let successful := successfulJobs job_results
  let failed := failedJobs job_results
  let timed_out := timedOutJobs job_results
  let submit_latencies :=
    (job_results.filter (fun r => decide (0 < r.submit_latency_ms))).map (·.submit_latency_ms)
  let submit_avg :=
    if submit_latencies.isEmpty then 0 else submit_latencies.sum / submit_latencies.length
  let submit_min :=
    match submit_latencies with | [] => 0 | a :: l => pyMin a l
  let submit_max :=
    match submit_latencies with | [] => 0 | a :: l => pyMax a l
  let submit_p95 :=
    if submit_latencies.isEmpty then 0 else (_calculate_percentile submit_latencies 95).getD 0
  let submit_p99 :=
    if submit_latencies.isEmpty then 0 else (_calculate_percentile submit_latencies 99).getD 0
  let job_durations :=
    (successful.filter (fun r => decide (0 < r.job_duration_seconds))).map (·.job_duration_seconds)
  let job_avg :=
    if job_durations.isEmpty then 0 else job_durations.sum / job_durations.length
  let job_min :=
    match job_durations with | [] => 0 | a :: l => pyMin a l
  let job_max :=
    match job_durations with | [] => 0 | a :: l => pyMax a l
  let job_p95 :=
    if job_durations.isEmpty then 0 else (_calculate_percentile job_durations 95).getD 0
  let job_p99 :=
    if job_durations.isEmpty then 0 else (_calculate_percentile job_durations 99).getD 0
  let poll_counts : List Nat :=
    (job_results.filter (fun r => decide (0 < r.poll_count))).map (·.poll_count)
  let avg_poll_count : ℚ :=
    if poll_counts.isEmpty then 0 else (poll_counts.sum : ℚ) / poll_counts.length
  let successful_files : Nat := (successful.map (·.file_count)).sum
  let successful_bytes : Nat := (successful.map (·.file_size_bytes)).sum
  let throughput_files :=
    if 0 < total_duration then (successful_files : ℚ) / total_duration else 0
  let throughput_mb :=
    if 0 < total_duration then ((successful_bytes : ℚ) / (1024 * 1024)) / total_duration else 0
  let total_jobs := job_results.length
  let error_rate :=
    if 0 < total_jobs then ((failed.length : ℚ) + timed_out.length) / total_jobs * 100 else 0
  { files_per_request := cfg.files_per_request
    concurrency := cfg.concurrency
    file_size_bytes := file_size_bytes
    total_files := total_files
    total_jobs := total_jobs
    successful_jobs := successful.length
    failed_jobs := failed.length
    timed_out_jobs := timed_out.length
    submit_avg_ms := submit_avg
    submit_min_ms := submit_min
    submit_max_ms := submit_max
    submit_p95_ms := submit_p95
    submit_p99_ms := submit_p99
    job_avg_seconds := job_avg
    job_min_seconds := job_min
    job_max_seconds := job_max
    job_p95_seconds := job_p95
    job_p99_seconds := job_p99
    avg_poll_count := avg_poll_count
    total_polls := poll_counts.sum
    throughput_files_per_second := throughput_files
    throughput_mb_per_second := throughput_mb
    error_rate := error_rate
    total_duration_seconds := total_duration }

/-- The aggregate fields of `SweepResult` (`core/models.py`) computed in
`FileSizeSweep.run` (lines 119-135). -/
structure SweepAggregates where
  total_files_processed : Nat
  total_bytes_processed : Nat
  overall_error_rate : ℚ
  deriving DecidableEq, Repr

/-- The aggregation epilogue of `FileSizeSweep.run` (lines 119-124):
cross-stage totals are sums of per-stage values and the overall error rate
is recomputed from the summed counts. -/
def sweep_aggregate (stage_results : List AsyncTestResult) : SweepAggregates :=
  let total_files : Nat := (stage_results.map (·.total_files)).sum
  let total_bytes : Nat := (stage_results.map (fun r => r.total_files * r.file_size_bytes)).sum
  let total_jobs : Nat := (stage_results.map (·.total_jobs)).sum
  let failed_jobs : Nat := (stage_results.map (fun r => r.failed_jobs + r.timed_out_jobs)).sum
  { total_files_processed := total_files
    total_bytes_processed := total_bytes
    overall_error_rate :=
      if 0 < total_jobs then (failed_jobs : ℚ) / total_jobs * 100 else 0 }

/-- One entry of `LoadTester.results` (`benchmarking/core/load_tester.py`,
`send_file_request`): the fields `_calculate_results` reads. -/
structure SyncRequestResult where
  success : Bool
  timestamp : ℚ
  latency_ms : ℚ
  deriving DecidableEq, Repr

/-- The fields of the synchronous `TestResult` computed from the collected
request results. -/
structure SyncTestResult where
  total_requests : Nat
  successful_requests : Nat
  failed_requests : Nat
  throughput_rps : ℚ
  error_rate : ℚ
  duration_seconds : ℚ
  deriving DecidableEq, Repr

/-- `LoadTester._calculate_results` (lines 242-296), restricted to the
count/throughput/error fields: raises (`none`) on an empty result list;
otherwise throughput is `total_requests` (successes and failures alike)
divided by the span from the first request start to the last request
completion. -/
def LoadTester_calculate_results (results : List SyncRequestResult) :
    Option SyncTestResult :=
  match results with
  | [] => none
  | r0 :: rest =>
    let total_requests := (r0 :: rest).length
    let successful_requests := ((r0 :: rest).filter (·.success)).length
    let failed_requests := total_requests - successful_requests
    let first_request_start := pyMin r0.timestamp (rest.map (·.timestamp))
    let completion := fun (r : SyncRequestResult) => r.timestamp + r.latency_ms / 1000
    let last_request_completion := pyMax (completion r0) (rest.map completion)
    let actual_duration := last_request_completion - first_request_start
    let throughput :=
      if 0 < actual_duration then (total_requests : ℚ) / actual_duration else 0
    let error_rate := ((failed_requests : ℚ) / total_requests) * 100
    some { total_requests := total_requests
           successful_requests := successful_requests
           failed_requests := failed_requests
           throughput_rps := throughput
           error_rate := error_rate
           duration_seconds := actual_duration }

/-! Helper lemmas about sorting. -/

lemma sorted_get_le_last (l : List ℚ) (hs : List.Sorted (· ≤ ·) l) (hl : 0 < l.length)
    (y : ℚ) (hy : y ∈ l) : y ≤ l.get ⟨l.length - 1, by omega⟩ := by
  obtain ⟨i, rfl⟩ := List.mem_iff_get.mp hy
  by_cases hlt : i.val < l.length - 1
  · exact hs.rel_get_of_lt (by rw [Fin.lt_def]; exact hlt)
  · have hi : i = (⟨l.length - 1, by omega⟩ : Fin l.length) := by
      apply Fin.ext
      have := i.isLt
      simp only []
      omega
    rw [hi]

/-- Index computation of the percentile helper for a nonnegative
percentile: the selected index is `floor(n*p/100)` clamped to `[0, n-1]`
and the lookup never fails. -/
lemma calculate_percentile_nonneg (xs : List ℚ) (p : ℚ) (hxs : xs ≠ []) (hp : 0 ≤ p) :
    ∃ h : (max 0 (min ⌊(xs.length : ℚ) * p / 100⌋ ((xs.length : Int) - 1))).toNat
        < (xs.insertionSort (· ≤ ·)).length,
      _calculate_percentile xs p =
        some ((xs.insertionSort (· ≤ ·)).get
          ⟨(max 0 (min ⌊(xs.length : ℚ) * p / 100⌋ ((xs.length : Int) - 1))).toNat, h⟩) := by
  have hn : 0 < xs.length := List.length_pos.mpr hxs
  have hlen : (xs.insertionSort (· ≤ ·)).length = xs.length :=
    List.length_insertionSort (· ≤ ·) xs
  have hq : 0 ≤ (xs.length : ℚ) * p / 100 := by positivity
  have hfloor : 0 ≤ ⌊(xs.length : ℚ) * p / 100⌋ := Int.floor_nonneg.mpr hq
  have hmin0 : 0 ≤ min ⌊(xs.length : ℚ) * p / 100⌋ ((xs.length : Int) - 1) := by
    apply le_min hfloor
    omega
  have hmax : max 0 (min ⌊(xs.length : ℚ) * p / 100⌋ ((xs.length : Int) - 1))
      = min ⌊(xs.length : ℚ) * p / 100⌋ ((xs.length : Int) - 1) :=
    max_eq_right hmin0
  have hidx : (max 0 (min ⌊(xs.length : ℚ) * p / 100⌋ ((xs.length : Int) - 1))).toNat
      < (xs.insertionSort (· ≤ ·)).length := by
    rw [hmax, hlen]
    have : min ⌊(xs.length : ℚ) * p / 100⌋ ((xs.length : Int) - 1) ≤ (xs.length : Int) - 1 :=
      min_le_right _ _
    omega
  refine ⟨hidx, ?_⟩
  unfold _calculate_percentile
  have hne : xs.isEmpty = false := by
    cases xs with
    | nil => exact absurd rfl hxs
    | cons a as => rfl
  rw [hne]
  simp only [Bool.false_eq_true, if_false]
  unfold pyInt
  have hq' : 0 ≤ ((xs.insertionSort (· ≤ ·)).length : ℚ) * p / 100 := by
    rw [hlen]; exact hq
  rw [if_pos hq']
  have hEq : ⌊((xs.insertionSort (· ≤ ·)).length : ℚ) * p / 100⌋
      ⊓ (((xs.insertionSort (· ≤ ·)).length : Int) - 1)
      = ⌊(xs.length : ℚ) * p / 100⌋ ⊓ ((xs.length : Int) - 1) := by
    rw [hlen]
  rw [hEq]
  unfold pyGetItem
  have h2 : (⌊(xs.length : ℚ) * p / 100⌋ ⊓ ((xs.length : Int) - 1)).toNat
      < (xs.insertionSort (· ≤ ·)).length := by rw [← hmax]; exact hidx
  simp only []
  rw [if_neg (by omega), if_neg (by omega), List.get?_eq_get h2]
  have hfin : (⟨(⌊(xs.length : ℚ) * p / 100⌋ ⊓ ((xs.length : Int) - 1)).toNat, h2⟩ :
      Fin (xs.insertionSort (· ≤ ·)).length)
      = ⟨(0 ⊔ (⌊(xs.length : ℚ) * p / 100⌋ ⊓ ((xs.length : Int) - 1))).toNat, hidx⟩ := by
    apply Fin.ext
    simp only [hmax]
  rw [hfin]

/-- C4: `_calculate_percentile` implements nearest-rank selection: for every
non-empty `xs` and nonnegative percentile `p` it returns the element of the
ascending sort of `xs` at index `floor(n * p / 100)` clamped to `[0, n-1]`
(never an error); `percentile(xs, 100)` is the maximum of `xs` for nonempty
`xs`; and `percentile([], p) = 0.0` for every `p`, never an error. -/
theorem C4_percentile_nearest_rank :
    (∀ (xs : List ℚ) (p : ℚ), xs ≠ [] → 0 ≤ p →
      ∃ h : (max 0 (min ⌊(xs.length : ℚ) * p / 100⌋ ((xs.length : Int) - 1))).toNat
          < (xs.insertionSort (· ≤ ·)).length,
        _calculate_percentile xs p =
          some ((xs.insertionSort (· ≤ ·)).get
            ⟨(max 0 (min ⌊(xs.length : ℚ) * p / 100⌋ ((xs.length : Int) - 1))).toNat, h⟩)) ∧
    (∀ xs : List ℚ, xs ≠ [] →
      ∃ m, _calculate_percentile xs 100 = some m ∧ m ∈ xs ∧ ∀ y ∈ xs, y ≤ m) ∧
    (∀ p : ℚ, _calculate_percentile [] p = some 0) := by
  refine ⟨fun xs p hxs hp => calculate_percentile_nonneg xs p hxs hp, ?_, fun p => rfl⟩
  intro xs hxs
  obtain ⟨h, heq⟩ := calculate_percentile_nonneg xs 100 hxs (by norm_num)
  have hlen : (xs.insertionSort (· ≤ ·)).length = xs.length :=
    List.length_insertionSort (· ≤ ·) xs
  have hn : 0 < xs.length := List.length_pos.mpr hxs
  have hidx : (max 0 (min ⌊(xs.length : ℚ) * 100 / 100⌋ ((xs.length : Int) - 1))).toNat
      = (xs.insertionSort (· ≤ ·)).length - 1 := by
    have h100 : ((xs.length : ℚ) * 100 / 100) = (xs.length : ℚ) := by field_simp
    rw [h100, Int.floor_natCast, hlen]
    omega
  refine ⟨(xs.insertionSort (· ≤ ·)).get
    ⟨(xs.insertionSort (· ≤ ·)).length - 1, by omega⟩, ?_, ?_, ?_⟩
  · rw [heq]
    congr 1
    apply congrArg
    exact Fin.ext hidx
  · exact (List.mem_insertionSort _).mp (List.get_mem _ _ _)
  · intro y hy
    exact sorted_get_le_last _ (List.sorted_insertionSort (· ≤ ·) xs) (by omega) y ((List.mem_insertionSort _).mpr hy)

/-- Witness for C4 at concrete inputs: the 100th percentile of `[3, 1, 2]`
is its maximum 3, and the percentile of the empty list is 0 for an
arbitrary percentile. -/
theorem C4_percentile_nearest_rank_witness :
    _calculate_percentile ([3, 1, 2] : List ℚ) 100 = some 3 ∧
    _calculate_percentile ([] : List ℚ) 42 = some 0 := by
  constructor
  · obtain ⟨m, hm, hmem, hmax⟩ := C4_percentile_nearest_rank.2.1 [3, 1, 2] (by decide)
    have h3 : (3 : ℚ) ≤ m := hmax 3 (by simp)
    have hcases : m = 3 ∨ m = 1 ∨ m = 2 := by simpa using hmem
    rcases hcases with rfl | rfl | rfl
    · exact hm
    · linarith
    · linarith
  · exact C4_percentile_nearest_rank.2.2 42

/-- A poll attempt on which `_poll_until_complete` returns: a 200 response
whose body parses and whose extracted state is truthy and matches one of
the finished or failed label sets (case-insensitively). -/
def attemptTerminal : PollAttempt → Bool
  | .transportError _ => false
  | .response status body =>
    if status ≠ 200 then false
    else
      match body with
      | .unparseable => false
      | .parsed st =>
        pyTruthy st &&
          (decide (pyLower (st.getD "") ∈ FINISHED_STATES) ||
           decide (pyLower (st.getD "") ∈ FAILED_STATES))

/-- A transient poll fault in the sense of the spec: a non-200 status, a
malformed body, or a transport error. -/
def transientAttempt : PollAttempt → Bool
  | .transportError _ => true
  | .response status body =>
    if status ≠ 200 then true
    else
      match body with
      | .unparseable => true
      | .parsed _ => false

/-- A concrete `JobResult` as produced by a successful submission, used by
several witnesses. -/
def jrEx : JobResult :=
  { job_id := some "j1"
    batch_id := 1
    file_count := 1
    file_size_bytes := 100
    submit_start := 0
    submit_end := 1
    submit_latency_ms := 1000
    job_start := 1
    job_end := 0
    job_duration_seconds := 0
    poll_count := 0
    final_state := "SUBMITTED"
    success := false
    error_message := none }

/-- One unrolling of the attempt loop on a transient fault: one attempt is
consumed, one interval is waited, and the observed state is unchanged. -/
lemma poll_loop_transient_step
    (cfg : AsyncTestConfig) (attempts : Nat → PollAttempt) (jr : JobResult)
    (job_start : ℚ) (fuel k poll_count : Nat) (last_state : Option String)
    (last_state_time now : ℚ)
    (h : transientAttempt (attempts k) = true) :
    poll_loop cfg attempts jr job_start (fuel + 1) k poll_count last_state last_state_time now
      = poll_loop cfg attempts jr job_start fuel (k + 1) (poll_count + 1)
          last_state last_state_time (now + (cfg.poll_interval_seconds : ℚ)) := by
  cases hA : attempts k with
  | transportError msg => simp [poll_loop, hA]
  | response status body =>
    by_cases hs : status = 200
    · subst hs
      cases body with
      | unparseable => simp [poll_loop, hA]
      | parsed st => simp [transientAttempt, hA] at h
    · cases body with
      | unparseable => simp [poll_loop, hA, hs]
      | parsed st => simp [poll_loop, hA, hs]

/-- One unrolling of the attempt loop on a 200 response with a parseable
body whose extracted state is not terminal: one attempt is consumed, one
interval is waited, and `last_state`/`last_state_time` advance exactly when
the state is truthy and differs from the previous one. -/
lemma poll_loop_observe_step
    (cfg : AsyncTestConfig) (attempts : Nat → PollAttempt) (jr : JobResult)
    (job_start : ℚ) (fuel k poll_count : Nat) (last_state : Option String)
    (last_state_time now : ℚ) (st : Option String)
    (hA : attempts k = .response 200 (.parsed st))
    (hterm : attemptTerminal (attempts k) = false) :
    poll_loop cfg attempts jr job_start (fuel + 1) k poll_count last_state last_state_time now
      = poll_loop cfg attempts jr job_start fuel (k + 1) (poll_count + 1)
          (if pyTruthy st && decide (st ≠ last_state) then st else last_state)
          (if pyTruthy st && decide (st ≠ last_state) then now else last_state_time)
          (now + (cfg.poll_interval_seconds : ℚ)) := by
  rw [hA] at hterm
  by_cases ht : pyTruthy st = true
  · have hterm' : (pyLower (st.getD "") ∉ FINISHED_STATES) ∧
        (pyLower (st.getD "") ∉ FAILED_STATES) := by
      simpa [attemptTerminal, ht] using hterm
    simp [poll_loop, hA, ht, hterm'.1, hterm'.2]
  · have ht' : pyTruthy st = false := by simpa using ht
    simp [poll_loop, hA, ht']

/-- C9: a poll attempt that suffers a transient fault (non-200 status,
malformed body, or transport error) neither advances nor resets the
poller's state machine: the loop continues with exactly one more consumed
attempt (one unit of fuel, `poll_count + 1`), the clock advanced by exactly
one standard poll interval, and `last_state`/`last_state_time` unchanged. -/
theorem C9_transient_fault_consumes_one_attempt
    (cfg : AsyncTestConfig) (attempts : Nat → PollAttempt) (jr : JobResult)
    (job_start : ℚ) (fuel k poll_count : Nat) (last_state : Option String)
    (last_state_time now : ℚ)
    (h : transientAttempt (attempts k) = true) :
    poll_loop cfg attempts jr job_start (fuel + 1) k poll_count last_state last_state_time now
      = poll_loop cfg attempts jr job_start fuel (k + 1) (poll_count + 1)
          last_state last_state_time (now + (cfg.poll_interval_seconds : ℚ)) :=
  poll_loop_transient_step cfg attempts jr job_start fuel k poll_count last_state
    last_state_time now h

/-- Witness for C9: a transport error during one poll attempt consumes one
attempt, one interval of waiting, and leaves the unobserved state alone. -/
theorem C9_transient_fault_consumes_one_attempt_witness :
    poll_loop ⟨1, 1, 10, 5⟩ (fun _ => .transportError "flaky") jrEx 1 2 0 0 none 1 1
      = poll_loop ⟨1, 1, 10, 5⟩ (fun _ => .transportError "flaky") jrEx 1 1 1 1 none 1 6 := by
  have h := C9_transient_fault_consumes_one_attempt ⟨1, 1, 10, 5⟩
    (fun _ => .transportError "flaky") jrEx 1 1 0 0 none 1 1 (by decide)
  have e : (1 : ℚ) + ((5 : Nat) : ℚ) = 6 := by norm_num
  rw [e] at h
  exact h

/-- On an attempt stream with no terminal report, the poll loop exhausts
its fuel: the result consumes all remaining attempts and is classified
TIMEOUT, unsuccessful. -/
lemma poll_loop_timeout (cfg : AsyncTestConfig) (attempts : Nat → PollAttempt)
    (jr : JobResult) (job_start : ℚ)
    (h : ∀ k, attemptTerminal (attempts k) = false) :
    ∀ (fuel k poll_count : Nat) (ls : Option String) (lst now : ℚ),
      (poll_loop cfg attempts jr job_start fuel k poll_count ls lst now).1.poll_count
          = poll_count + fuel ∧
      (poll_loop cfg attempts jr job_start fuel k poll_count ls lst now).1.final_state
          = "TIMEOUT" ∧
      (poll_loop cfg attempts jr job_start fuel k poll_count ls lst now).1.success = false := by
  intro fuel
  induction fuel with
  | zero => intro k pc ls lst now; simp [poll_loop]
  | succ n ih =>
    intro k pc ls lst now
    have hk := h k
    by_cases htr : transientAttempt (attempts k) = true
    · rw [poll_loop_transient_step cfg attempts jr job_start n k pc ls lst now htr]
      obtain ⟨h1, h2, h3⟩ := ih (k + 1) (pc + 1) ls lst (now + (cfg.poll_interval_seconds : ℚ))
      exact ⟨h1.trans (by omega), h2, h3⟩
    · cases hA : attempts k with
      | transportError msg => rw [hA] at htr; simp [transientAttempt] at htr
      | response status body =>
        by_cases hs : status = 200
        · subst hs
          cases body with
          | unparseable => rw [hA] at htr; simp [transientAttempt] at htr
          | parsed st =>
            rw [poll_loop_observe_step cfg attempts jr job_start n k pc ls lst now st hA hk]
            obtain ⟨h1, h2, h3⟩ := ih (k + 1) (pc + 1) _ _ (now + (cfg.poll_interval_seconds : ℚ))
            exact ⟨h1.trans (by omega), h2, h3⟩
        · rw [hA] at htr; simp [transientAttempt, hs] at htr

/-- On any attempt stream, the poll loop consumes at most its fuel. -/
lemma poll_loop_count_le (cfg : AsyncTestConfig) (attempts : Nat → PollAttempt)
    (jr : JobResult) (job_start : ℚ) :
    ∀ (fuel k poll_count : Nat) (ls : Option String) (lst now : ℚ),
      (poll_loop cfg attempts jr job_start fuel k poll_count ls lst now).1.poll_count
        ≤ poll_count + fuel := by
  intro fuel
  induction fuel with
  | zero => intro k pc ls lst now; simp [poll_loop]
  | succ n ih =>
    intro k pc ls lst now
    by_cases htr : transientAttempt (attempts k) = true
    · rw [poll_loop_transient_step cfg attempts jr job_start n k pc ls lst now htr]
      exact le_trans (ih (k + 1) (pc + 1) ls lst _) (by omega)
    · cases hA : attempts k with
      | transportError msg => rw [hA] at htr; simp [transientAttempt] at htr
      | response status body =>
        by_cases hs : status = 200
        · subst hs
          cases body with
          | unparseable => rw [hA] at htr; simp [transientAttempt] at htr
          | parsed st =>
            by_cases hterm : attemptTerminal (attempts k) = true
            · rw [hA] at hterm
              have hterm2 : pyTruthy st = true ∧
                  (pyLower (st.getD "") ∈ FINISHED_STATES ∨
                   pyLower (st.getD "") ∈ FAILED_STATES) := by
                simpa [attemptTerminal] using hterm
              by_cases hf : pyLower (st.getD "") ∈ FINISHED_STATES
              · simp only [poll_loop, hA]
                rw [if_neg (by simp), if_pos hterm2.1, if_pos hf]
                simp
              · have hfl : pyLower (st.getD "") ∈ FAILED_STATES := hterm2.2.resolve_left hf
                simp only [poll_loop, hA]
                rw [if_neg (by simp), if_pos hterm2.1, if_neg hf, if_pos hfl]
                simp
            · rw [poll_loop_observe_step cfg attempts jr job_start n k pc ls lst now st hA
                (by simpa using hterm)]
              exact le_trans (ih (k + 1) (pc + 1) _ _ _) (by omega)
        · rw [hA] at htr; simp [transientAttempt, hs] at htr

/-- C2: for a job with an accepted (truthy) job identifier the poller makes
at most `max_attempts = job_timeout_seconds / poll_interval_seconds`
(floored) poll attempts, and on a stream that never reports a terminal
state it stops after exactly that many attempts with the timed-out terminal
classification (the code spells the state "TIMEOUT"; aggregation counts it
in the timed-out bucket) and `success = false`. -/
theorem C2_poll_budget_and_timeout (cfg : AsyncTestConfig)
    (attempts : Nat → PollAttempt) (jr : JobResult) (now : ℚ)
    (hid : pyTruthy jr.job_id = true)
    (hterm : ∀ k, attemptTerminal (attempts k) = false) :
    (_poll_until_complete cfg attempts jr now).1.poll_count = max_attempts cfg ∧
    (_poll_until_complete cfg attempts jr now).1.final_state = "TIMEOUT" ∧
    (_poll_until_complete cfg attempts jr now).1.success = false ∧
    timedOutJobs [(_poll_until_complete cfg attempts jr now).1]
      = [(_poll_until_complete cfg attempts jr now).1] ∧
    (∀ attempts2 : Nat → PollAttempt,
      (_poll_until_complete cfg attempts2 jr now).1.poll_count ≤ max_attempts cfg) := by
  have hu : _poll_until_complete cfg attempts jr now
      = poll_loop cfg attempts jr now (max_attempts cfg) 0 0 none now now := by
    simp [_poll_until_complete, hid]
  obtain ⟨h1, h2, h3⟩ :=
    poll_loop_timeout cfg attempts jr now hterm (max_attempts cfg) 0 0 none now now
  rw [hu]
  refine ⟨h1.trans (by omega), h2, h3, ?_, ?_⟩
  · simp [timedOutJobs, h2]
  · intro attempts2
    have hu2 : _poll_until_complete cfg attempts2 jr now
        = poll_loop cfg attempts2 jr now (max_attempts cfg) 0 0 none now now := by
      simp [_poll_until_complete, hid]
    rw [hu2]
    exact le_trans (poll_loop_count_le cfg attempts2 jr now (max_attempts cfg) 0 0 none now now)
      (by omega)

/-- Witness for C2, Scenario C of the spec: `job_timeout_seconds = 10`,
`poll_interval_seconds = 5`, and a server that always answers 200 with
state "running": exactly 2 poll attempts and final state TIMEOUT. -/
theorem C2_poll_budget_and_timeout_witness :
    (_poll_until_complete ⟨1, 1, 10, 5⟩
        (fun _ => .response 200 (.parsed (some "running"))) jrEx 1).1.poll_count = 2 ∧
    (_poll_until_complete ⟨1, 1, 10, 5⟩
        (fun _ => .response 200 (.parsed (some "running"))) jrEx 1).1.final_state = "TIMEOUT" := by
  have hc : attemptTerminal (.response 200 (.parsed (some "running"))) = false := by decide
  have h := C2_poll_budget_and_timeout ⟨1, 1, 10, 5⟩
    (fun _ => .response 200 (.parsed (some "running"))) jrEx 1 (by decide) (fun _ => hc)
  exact ⟨h.1, h.2.1⟩

/-- C10: a 202 response whose JSON body parses but has no `"id"` (or a
null one) yields a JobResult with no job id, final state "SUBMITTED" and
`success = false`; the poller returns it untouched with zero poll
attempts, and aggregation counts it as a failed job (not timed out, not
successful), contributing to the error rate. -/
theorem C10_missing_id_is_failed
    (cfg : AsyncTestConfig) (attempts : Nat → PollAttempt)
    (batch_id file_count file_size_bytes : Nat) (submit_start submit_dur : ℚ)
    (td : ℚ) (fsb total_files : Nat) :
    ∃ r : JobResult,
      _submit_batch (.response 202 (.parsed none)) batch_id file_count file_size_bytes
          submit_start submit_dur = .ok (r, submit_start + submit_dur) ∧
      r.job_id = none ∧ r.final_state = "SUBMITTED" ∧ r.success = false ∧
      (∀ now : ℚ, _poll_until_complete cfg attempts r now = (r, now)) ∧
      r.poll_count = 0 ∧
      failedJobs [r] = [r] ∧ timedOutJobs [r] = [] ∧ successfulJobs [r] = [] ∧
      (_calculate_results cfg [r] td fsb total_files).error_rate = 100 := by
  refine ⟨_, rfl, rfl, rfl, rfl, ?_, rfl, ?_, ?_, ?_, ?_⟩
  · intro now
    simp [_poll_until_complete, pyTruthy]
  · simp [failedJobs]
  · simp [timedOutJobs]
  · simp [successfulJobs]
  · simp [_calculate_results, failedJobs, timedOutJobs, successfulJobs]

/-- Witness for C10 at concrete inputs. -/
theorem C10_missing_id_is_failed_witness :
    (_submit_batch (.response 202 (.parsed none)) 1 2 100 0 1).map
      (fun p => (p.1.job_id, p.1.final_state, p.1.success))
      = .ok (none, "SUBMITTED", false) := by
  obtain ⟨r, h1, h2, h3, h4, _⟩ :=
    C10_missing_id_is_failed ⟨1, 1, 10, 5⟩ (fun _ => .transportError "x") 1 2 100 0 1 0 100 2
  rw [h1]
  simp only [Except.map]
  rw [h2, h3, h4]

/-- The three classification filters of `_calculate_results` partition any
result list in which no successful result carries the timeout state. -/
lemma filter_partition_count (rs : List JobResult)
    (hinv : ∀ r ∈ rs, r.success = true → r.final_state ≠ "TIMEOUT") :
    (successfulJobs rs).length + (failedJobs rs).length + (timedOutJobs rs).length
      = rs.length := by
  induction rs with
  | nil => simp [successfulJobs, failedJobs, timedOutJobs]
  | cons r rest ih =>
    have ih' := ih (fun x hx => hinv x (List.mem_cons_of_mem _ hx))
    simp only [successfulJobs, failedJobs, timedOutJobs] at ih' ⊢
    rw [List.filter_cons, List.filter_cons, List.filter_cons]
    by_cases hsucc : r.success = true
    · have hns : (r.final_state == "TIMEOUT") = false := by
        simpa using hinv r (List.mem_cons_self _ _) hsucc
      simp only [hsucc, hns, Bool.not_true, Bool.not_false, Bool.false_and, if_true,
        Bool.false_eq_true, if_false, List.length_cons]
      omega
    · have hsucc' : r.success = false := by simpa using hsucc
      by_cases hto : (r.final_state == "TIMEOUT") = true
      · simp only [hsucc', hto, Bool.not_true, Bool.not_false, Bool.true_and, Bool.and_false,
          if_true, Bool.false_eq_true, if_false, List.length_cons]
        omega
      · have hto' : (r.final_state == "TIMEOUT") = false := by simpa using hto
        simp only [hsucc', hto', Bool.not_true, Bool.not_false, Bool.true_and, Bool.and_true,
          if_true, Bool.false_eq_true, if_false, List.length_cons]
        omega

/-- C5: for every collection of per-job outcomes in which no successful
outcome carries the timeout state (true of every outcome the pipeline
produces), successful + failed + timed-out counts partition the collection,
and the error rate is `100 * (failed + timed_out) / total` for a nonempty
collection and 0 for an empty one. -/
theorem C5_error_rate_law (cfg : AsyncTestConfig) (rs : List JobResult)
    (td : ℚ) (fsb total_files : Nat)
    (hinv : ∀ r ∈ rs, r.success = true → r.final_state ≠ "TIMEOUT") :
    (_calculate_results cfg rs td fsb total_files).successful_jobs
        + (_calculate_results cfg rs td fsb total_files).failed_jobs
        + (_calculate_results cfg rs td fsb total_files).timed_out_jobs
      = (_calculate_results cfg rs td fsb total_files).total_jobs ∧
    ((_calculate_results cfg rs td fsb total_files).total_jobs ≠ 0 →
      (_calculate_results cfg rs td fsb total_files).error_rate
        = 100 * ((((_calculate_results cfg rs td fsb total_files).failed_jobs : ℚ)
            + ((_calculate_results cfg rs td fsb total_files).timed_out_jobs : ℚ))
              / ((_calculate_results cfg rs td fsb total_files).total_jobs : ℚ))) ∧
    ((_calculate_results cfg rs td fsb total_files).total_jobs = 0 →
      (_calculate_results cfg rs td fsb total_files).error_rate = 0) := by
  refine ⟨?_, ?_, ?_⟩
  · simpa [_calculate_results] using filter_partition_count rs hinv
  · intro hne
    simp only [_calculate_results] at hne ⊢
    rw [if_pos (by omega)]
    ring
  · intro hz
    simp only [_calculate_results] at hz ⊢
    rw [if_neg (by omega)]

/-- A successful and a timed-out outcome, for concrete witnesses. -/
def rSuccEx : JobResult :=
  { jrEx with
    final_state := "finished"
    success := true
    job_end := 6
    job_duration_seconds := 5
    poll_count := 1 }

def rTimeoutEx : JobResult :=
  { jrEx with
    final_state := "TIMEOUT"
    success := false
    job_end := 11
    job_duration_seconds := 10
    poll_count := 2 }

/-- Witness for C5: one success and one timeout give 1 + 1 + 0... counts
partitioning 2 jobs and a 50% error rate. -/
theorem C5_error_rate_law_witness :
    (_calculate_results ⟨1, 1, 10, 5⟩ [rSuccEx, rTimeoutEx] 1 100 2).successful_jobs
        + (_calculate_results ⟨1, 1, 10, 5⟩ [rSuccEx, rTimeoutEx] 1 100 2).failed_jobs
        + (_calculate_results ⟨1, 1, 10, 5⟩ [rSuccEx, rTimeoutEx] 1 100 2).timed_out_jobs
      = (_calculate_results ⟨1, 1, 10, 5⟩ [rSuccEx, rTimeoutEx] 1 100 2).total_jobs ∧
    (_calculate_results ⟨1, 1, 10, 5⟩ [rSuccEx, rTimeoutEx] 1 100 2).error_rate = 50 := by
  have h := C5_error_rate_law ⟨1, 1, 10, 5⟩ [rSuccEx, rTimeoutEx] 1 100 2 (by decide)
  refine ⟨h.1, ?_⟩
  have h2 := h.2.1 (by decide)
  have hf : (_calculate_results ⟨1, 1, 10, 5⟩ [rSuccEx, rTimeoutEx] 1 100 2).failed_jobs
      = 0 := by decide
  have ht : (_calculate_results ⟨1, 1, 10, 5⟩ [rSuccEx, rTimeoutEx] 1 100 2).timed_out_jobs
      = 1 := by decide
  have htot : (_calculate_results ⟨1, 1, 10, 5⟩ [rSuccEx, rTimeoutEx] 1 100 2).total_jobs
      = 2 := by decide
  rw [h2, hf, ht, htot]
  norm_num

/-- The error-rate field of `_calculate_results`, by definition. -/
lemma calculate_results_error_rate (cfg : AsyncTestConfig) (rs : List JobResult)
    (td : ℚ) (fsb tf : Nat) :
    (_calculate_results cfg rs td fsb tf).error_rate
      = if 0 < rs.length
        then (((failedJobs rs).length : ℚ) + ((timedOutJobs rs).length : ℚ))
          / (rs.length : ℚ) * 100
        else 0 := rfl

/-- The files-throughput field of `_calculate_results`, by definition. -/
lemma calculate_results_throughput (cfg : AsyncTestConfig) (rs : List JobResult)
    (td : ℚ) (fsb tf : Nat) :
    (_calculate_results cfg rs td fsb tf).throughput_files_per_second
      = if 0 < td
        then (Nat.cast (((successfulJobs rs).map (·.file_count)).sum) : ℚ) / td
        else 0 := rfl

/-- The overall error rate of the sweep reduction, by definition. -/
lemma sweep_aggregate_error_rate (stages : List AsyncTestResult) :
    (sweep_aggregate stages).overall_error_rate
      = if 0 < (stages.map (·.total_jobs)).sum
        then ((Nat.cast ((stages.map (fun r => r.failed_jobs + r.timed_out_jobs)).sum) : ℚ)
          / (Nat.cast ((stages.map (·.total_jobs)).sum) : ℚ)) * 100
        else 0 := rfl

/-- Two concrete stage results built by the aggregator itself: one stage
with a single success (error rate 0) and one with one success and three
timeouts (error rate 75). -/
def stageA : AsyncTestResult := _calculate_results ⟨1, 1, 10, 5⟩ [rSuccEx] 1 100 1

def stageB : AsyncTestResult :=
  _calculate_results ⟨1, 1, 10, 5⟩ [rSuccEx, rTimeoutEx, rTimeoutEx, rTimeoutEx] 1 100 4

/-- C6: the sweep-level reduction sums per-stage totals (total files, total
bytes) and computes the overall error rate from the summed counts —
`100 * sum(failed + timed_out) / sum(total_jobs)`, 0 when the summed total
is 0 — and this is not the average of the per-stage error rates: on the
concrete stages above the summed-count rate is 60 while the average of
rates is 37.5. -/
theorem C6_sweep_reduction_from_summed_counts :
    (∀ stages : List AsyncTestResult,
      (sweep_aggregate stages).total_files_processed
        = (stages.map (·.total_files)).sum ∧
      (sweep_aggregate stages).total_bytes_processed
        = (stages.map (fun r => r.total_files * r.file_size_bytes)).sum ∧
      ((stages.map (·.total_jobs)).sum ≠ 0 →
        (sweep_aggregate stages).overall_error_rate
          = 100 * ((Nat.cast ((stages.map (fun r => r.failed_jobs + r.timed_out_jobs)).sum) : ℚ)
              / (Nat.cast ((stages.map (·.total_jobs)).sum) : ℚ))) ∧
      ((stages.map (·.total_jobs)).sum = 0 →
        (sweep_aggregate stages).overall_error_rate = 0)) ∧
    (sweep_aggregate [stageA, stageB]).overall_error_rate
      ≠ (stageA.error_rate + stageB.error_rate) / 2 := by
  constructor
  · intro stages
    refine ⟨rfl, rfl, fun hne => ?_, fun hz => ?_⟩
    · rw [sweep_aggregate_error_rate, if_pos (by omega)]
      ring
    · rw [sweep_aggregate_error_rate, if_neg (by omega)]
  · have hT : (List.map (fun x => x.total_jobs) [stageA, stageB]).sum = 5 := by decide
    have hF : (List.map (fun r => r.failed_jobs + r.timed_out_jobs) [stageA, stageB]).sum = 3 := by
      decide
    have hO : (sweep_aggregate [stageA, stageB]).overall_error_rate = 60 := by
      rw [sweep_aggregate_error_rate, hF, hT]
      norm_num
    have hA0 : stageA.error_rate = 0 := by
      show (_calculate_results ⟨1, 1, 10, 5⟩ [rSuccEx] 1 100 1).error_rate = 0
      rw [calculate_results_error_rate]
      have h1 : (failedJobs [rSuccEx]).length = 0 := by decide
      have h2 : (timedOutJobs [rSuccEx]).length = 0 := by decide
      rw [h1, h2]
      simp
    have hB75 : stageB.error_rate = 75 := by
      show (_calculate_results ⟨1, 1, 10, 5⟩
        [rSuccEx, rTimeoutEx, rTimeoutEx, rTimeoutEx] 1 100 4).error_rate = 75
      rw [calculate_results_error_rate]
      have h1 : (failedJobs [rSuccEx, rTimeoutEx, rTimeoutEx, rTimeoutEx]).length = 0 := by
        decide
      have h2 : (timedOutJobs [rSuccEx, rTimeoutEx, rTimeoutEx, rTimeoutEx]).length = 3 := by
        decide
      rw [h1, h2]
      simp only [List.length_cons, List.length_nil]
      norm_num
    rw [hO, hA0, hB75]
    norm_num

/-- Witness for C6 on the concrete two-stage sweep: summed counts give
`100 * 3/5 = 60`. -/
theorem C6_sweep_reduction_from_summed_counts_witness :
    (sweep_aggregate [stageA, stageB]).overall_error_rate = 60 := by
  have h := (C6_sweep_reduction_from_summed_counts.1 [stageA, stageB]).2.2.1 (by decide)
  have hT : (List.map (fun x => x.total_jobs) [stageA, stageB]).sum = 5 := by decide
  have hF : (List.map (fun r => r.failed_jobs + r.timed_out_jobs) [stageA, stageB]).sum = 3 := by
    decide
  rw [h, hF, hT]
  norm_num

/-- Two synchronous requests, both starting at time 0 and taking 1000 ms,
the first failing and the second succeeding. -/
def syncEx : List SyncRequestResult := [⟨false, 0, 1000⟩, ⟨true, 0, 1000⟩]

/-- The result the synchronous calculator produces on `syncEx`. -/
def syncExResult : SyncTestResult :=
  { total_requests := 2
    successful_requests := 1
    failed_requests := 1
    throughput_rps := 2
    error_rate := 50
    duration_seconds := 1 }

/-- Counterexample to C7 as stated: on `syncEx` the synchronous load
tester reports throughput 2 requests/second over a 1-second wall clock
although only 1 request succeeded — the code divides the TOTAL request
count, not the successful count, by the duration, so reported throughput
(2) differs from successful count / duration (1). -/
theorem C7_throughput_counterexample :
    LoadTester_calculate_results syncEx = some syncExResult ∧
    (syncEx.filter (·.success)).length = 1 ∧
    syncExResult.throughput_rps ≠
      ((syncEx.filter (·.success)).length : ℚ) / syncExResult.duration_seconds := by
  refine ⟨?_, by decide, ?_⟩
  · simp only [LoadTester_calculate_results, syncEx, syncExResult, pyMin, pyMax,
      List.map_cons, List.map_nil, List.foldl_cons, List.foldl_nil, List.filter,
      List.length_cons, List.length_nil]
    norm_num
  · have h1 : (syncEx.filter (·.success)).length = 1 := by decide
    rw [h1]
    simp only [syncExResult]
    norm_num

/-- C7 amended: in the async tester, reported files-throughput is the
successful file count divided by the whole-run wall-clock duration, and 0
when the duration is not positive; in the synchronous load tester,
reported throughput is the TOTAL request count (successes and failures
alike) divided by the span from first request start to last request
completion, and 0 when that span is not positive. -/
theorem C7_throughput_amended :
    (∀ (cfg : AsyncTestConfig) (rs : List JobResult) (td : ℚ) (fsb tf : Nat),
      (0 < td →
        (_calculate_results cfg rs td fsb tf).throughput_files_per_second
          = (Nat.cast (((successfulJobs rs).map (·.file_count)).sum) : ℚ) / td) ∧
      (¬ 0 < td →
        (_calculate_results cfg rs td fsb tf).throughput_files_per_second = 0)) ∧
    (∀ (results : List SyncRequestResult) (res : SyncTestResult),
      LoadTester_calculate_results results = some res →
      ((0 < res.duration_seconds →
          res.throughput_rps = (res.total_requests : ℚ) / res.duration_seconds) ∧
       (¬ 0 < res.duration_seconds → res.throughput_rps = 0))) := by
  constructor
  · intro cfg rs td fsb tf
    constructor
    · intro h
      rw [calculate_results_throughput, if_pos h]
    · intro h
      rw [calculate_results_throughput, if_neg h]
  · intro results res h
    cases results with
    | nil => simp [LoadTester_calculate_results] at h
    | cons r0 rest =>
      simp only [LoadTester_calculate_results, Option.some.injEq] at h
      subst h
      constructor
      · intro hpos
        dsimp only at hpos ⊢
        rw [if_pos hpos]
      · intro hneg
        dsimp only at hneg ⊢
        rw [if_neg hneg]

/-- Witness for the amended C7 at concrete inputs: one successful file in
a 2-second run gives throughput 1/2 in the async tester, and the
synchronous tester on `syncEx` reports 2/1. -/
theorem C7_throughput_amended_witness :
    (_calculate_results ⟨1, 1, 10, 5⟩ [rSuccEx, rTimeoutEx] 2 100 2).throughput_files_per_second
      = 1 / 2 ∧
    syncExResult.throughput_rps = 2 / 1 := by
  constructor
  · have h := (C7_throughput_amended.1 ⟨1, 1, 10, 5⟩ [rSuccEx, rTimeoutEx] 2 100 2).1
      (by norm_num)
    have hsum : ((successfulJobs [rSuccEx, rTimeoutEx]).map (·.file_count)).sum = 1 := by decide
    rw [h, hsum]
    norm_num
  · have hres : LoadTester_calculate_results syncEx = some syncExResult := by
      simp only [LoadTester_calculate_results, syncEx, syncExResult, pyMin, pyMax,
        List.map_cons, List.map_nil, List.foldl_cons, List.foldl_nil, List.filter,
        List.length_cons, List.length_nil]
      norm_num
    have h := (C7_throughput_amended.2 syncEx syncExResult hres).1 (by simp [syncExResult])
    rw [h]
    simp [syncExResult]

/-- The poll loop never decreases the running attempt counter. -/
lemma poll_loop_count_mono (cfg : AsyncTestConfig) (attempts : Nat → PollAttempt)
    (jr : JobResult) (job_start : ℚ) :
    ∀ (fuel k poll_count : Nat) (ls : Option String) (lst now : ℚ),
      poll_count ≤ (poll_loop cfg attempts jr job_start fuel k poll_count ls lst now).1.poll_count := by
  intro fuel
  induction fuel with
  | zero => intro k pc ls lst now; simp [poll_loop]
  | succ n ih =>
    intro k pc ls lst now
    by_cases htr : transientAttempt (attempts k) = true
    · rw [poll_loop_transient_step cfg attempts jr job_start n k pc ls lst now htr]
      exact le_trans (by omega) (ih (k + 1) (pc + 1) ls lst _)
    · cases hA : attempts k with
      | transportError msg => rw [hA] at htr; simp [transientAttempt] at htr
      | response status body =>
        by_cases hs : status = 200
        · subst hs
          cases body with
          | unparseable => rw [hA] at htr; simp [transientAttempt] at htr
          | parsed st =>
            by_cases hterm : attemptTerminal (attempts k) = true
            · rw [hA] at hterm
              have hterm2 : pyTruthy st = true ∧
                  (pyLower (st.getD "") ∈ FINISHED_STATES ∨
                   pyLower (st.getD "") ∈ FAILED_STATES) := by
                simpa [attemptTerminal] using hterm
              by_cases hf : pyLower (st.getD "") ∈ FINISHED_STATES
              · simp only [poll_loop, hA]
                rw [if_neg (by simp), if_pos hterm2.1, if_pos hf]
                simp
              · have hfl : pyLower (st.getD "") ∈ FAILED_STATES := hterm2.2.resolve_left hf
                simp only [poll_loop, hA]
                rw [if_neg (by simp), if_pos hterm2.1, if_neg hf, if_pos hfl]
                simp
            · rw [poll_loop_observe_step cfg attempts jr job_start n k pc ls lst now st hA
                (by simpa using hterm)]
              exact le_trans (by omega) (ih (k + 1) (pc + 1) _ _ _)
        · rw [hA] at htr; simp [transientAttempt, hs] at htr

/-- With at least one unit of fuel the poll loop makes at least one
attempt. -/
lemma poll_loop_count_pos (cfg : AsyncTestConfig) (attempts : Nat → PollAttempt)
    (jr : JobResult) (job_start : ℚ)
    (fuel k poll_count : Nat) (ls : Option String) (lst now : ℚ) (hf : 1 ≤ fuel) :
    poll_count + 1
      ≤ (poll_loop cfg attempts jr job_start fuel k poll_count ls lst now).1.poll_count := by
  cases fuel with
  | zero => omega
  | succ n =>
    by_cases htr : transientAttempt (attempts k) = true
    · rw [poll_loop_transient_step cfg attempts jr job_start n k poll_count ls lst now htr]
      exact poll_loop_count_mono cfg attempts jr job_start n (k + 1) (poll_count + 1) ls lst _
    · cases hA : attempts k with
      | transportError msg => rw [hA] at htr; simp [transientAttempt] at htr
      | response status body =>
        by_cases hs : status = 200
        · subst hs
          cases body with
          | unparseable => rw [hA] at htr; simp [transientAttempt] at htr
          | parsed st =>
            by_cases hterm : attemptTerminal (attempts k) = true
            · rw [hA] at hterm
              have hterm2 : pyTruthy st = true ∧
                  (pyLower (st.getD "") ∈ FINISHED_STATES ∨
                   pyLower (st.getD "") ∈ FAILED_STATES) := by
                simpa [attemptTerminal] using hterm
              by_cases hfin : pyLower (st.getD "") ∈ FINISHED_STATES
              · simp only [poll_loop, hA]
                rw [if_neg (by simp), if_pos hterm2.1, if_pos hfin]
              · have hfl : pyLower (st.getD "") ∈ FAILED_STATES := hterm2.2.resolve_left hfin
                simp only [poll_loop, hA]
                rw [if_neg (by simp), if_pos hterm2.1, if_neg hfin, if_pos hfl]
            · rw [poll_loop_observe_step cfg attempts jr job_start n k poll_count ls lst now st hA
                (by simpa using hterm)]
              exact poll_loop_count_mono cfg attempts jr job_start n (k + 1) (poll_count + 1) _ _ _
        · rw [hA] at htr; simp [transientAttempt, hs] at htr

/-- The outcome `_submit_batch` produces for a 202 response whose parseable
body has no id, at batch 1, one file of 100 bytes, submit start 0 and
duration 1. -/
def rC3 : JobResult :=
  { job_id := none
    batch_id := 1
    file_count := 1
    file_size_bytes := 100
    submit_start := 0
    submit_end := 1
    submit_latency_ms := 1000
    job_start := 1
    job_end := 0
    job_duration_seconds := 0
    poll_count := 0
    final_state := "SUBMITTED"
    success := false
    error_message := none }

/-- Counterexample to C3 as stated: the claimed classification is NOT
exhaustive.  A 202 response with a parseable body lacking an id falls in
none of the three described classes: the outcome is neither SUBMIT_FAILED
nor PARSE_ERROR, it carries no job identifier, and it does not proceed to
polling (the poller returns it untouched), even against a server that
would immediately report "finished". -/
theorem C3_classification_counterexample :
    _submit_batch (.response 202 (.parsed none)) 1 1 100 0 1 = .ok (rC3, 0 + 1) ∧
    rC3.final_state = "SUBMITTED" ∧
    rC3.final_state ≠ "SUBMIT_FAILED" ∧
    rC3.final_state ≠ "PARSE_ERROR" ∧
    rC3.job_id = none ∧
    _poll_until_complete ⟨1, 1, 10, 5⟩ (fun _ => .response 200 (.parsed (some "finished"))) rC3 1
      = (rC3, 1) := by
  refine ⟨?_, rfl, by decide, by decide, rfl, ?_⟩
  · simp only [_submit_batch, rC3, Except.ok.injEq, Prod.mk.injEq, JobResult.mk.injEq]
    norm_num
  · simp [_poll_until_complete, pyTruthy, rC3]

/-- C3 amended: the submitter's classification of an HTTP response is
exclusive, and exhaustive once a fourth class is added for a success
status whose parseable body lacks a truthy id (C10's case): a non-202
status yields a terminal SUBMIT_FAILED outcome with no job identifier and
no polling; a 202 status with an unparseable body yields terminal
PARSE_ERROR with no polling; a 202 status with a truthy job identifier
yields a non-terminal "SUBMITTED" outcome that proceeds to polling (at
least one poll attempt whenever the attempt budget is nonzero); a 202
status with a parseable body whose id is missing or empty yields a
"SUBMITTED" outcome with a falsy id that is never polled.  In every branch
the recorded submission latency is (submit_end - submit_start) * 1000 with
submit_end = response-received time. -/
theorem C3_classification_amended (cfg : AsyncTestConfig)
    (attempts : Nat → PollAttempt) (status : Nat) (body : SubmitBody)
    (batch_id file_count fsb : Nat) (ss dur : ℚ) :
    ∃ (r : JobResult) (c : ℚ),
      _submit_batch (.response status body) batch_id file_count fsb ss dur = .ok (r, c) ∧
      c = ss + dur ∧
      r.submit_start = ss ∧
      r.submit_end = ss + dur ∧
      r.submit_latency_ms = (ss + dur - ss) * 1000 ∧
      (status ≠ 202 →
        r.final_state = "SUBMIT_FAILED" ∧ r.job_id = none ∧ r.success = false ∧
        (∀ now : ℚ, _poll_until_complete cfg attempts r now = (r, now))) ∧
      (status = 202 → ∀ msg, body = .unparseable msg →
        r.final_state = "PARSE_ERROR" ∧ r.job_id = none ∧ r.success = false ∧
        (∀ now : ℚ, _poll_until_complete cfg attempts r now = (r, now))) ∧
      (status = 202 → ∀ id, body = .parsed (some id) → id ≠ "" →
        r.final_state = "SUBMITTED" ∧ r.job_id = some id ∧ r.success = false ∧
        (1 ≤ max_attempts cfg → ∀ now : ℚ,
          1 ≤ (_poll_until_complete cfg attempts r now).1.poll_count)) ∧
      (status = 202 → (body = .parsed none ∨ body = .parsed (some "")) →
        r.final_state = "SUBMITTED" ∧ pyTruthy r.job_id = false ∧ r.success = false ∧
        (∀ now : ℚ, _poll_until_complete cfg attempts r now = (r, now))) := by
  by_cases h202 : status = 202
  · subst h202
    cases body with
    | unparseable msg =>
      refine ⟨_, _, rfl, rfl, rfl, rfl, rfl, fun h => absurd rfl h, ?_, ?_, ?_⟩
      · intro _ msg' _
        refine ⟨rfl, rfl, rfl, fun now => ?_⟩
        simp [_poll_until_complete, pyTruthy]
      · intro _ id hid
        exact absurd hid (by simp)
      · intro _ hor
        rcases hor with h | h <;> exact absurd h (by simp)
    | parsed id =>
      cases id with
      | none =>
        refine ⟨_, _, rfl, rfl, rfl, rfl, rfl, fun h => absurd rfl h, ?_, ?_, ?_⟩
        · intro _ msg hmsg
          exact absurd hmsg (by simp)
        · intro _ id' hid'
          exact absurd hid' (by simp)
        · intro _ _
          refine ⟨rfl, rfl, rfl, fun now => ?_⟩
          simp [_poll_until_complete, pyTruthy]
      | some s =>
        refine ⟨_, _, rfl, rfl, rfl, rfl, rfl, fun h => absurd rfl h, ?_, ?_, ?_⟩
        · intro _ msg hmsg
          exact absurd hmsg (by simp)
        · intro _ id' hid' hne
          have hids : id' = s := by
            have := hid'
            simp only [SubmitBody.parsed.injEq, Option.some.injEq] at this
            exact this.symm
          subst hids
          refine ⟨rfl, rfl, rfl, fun hmax now => ?_⟩
          have htr : pyTruthy (some id') = true := by
            simp [pyTruthy, hne]
          show 1 ≤ (_poll_until_complete cfg attempts _ now).1.poll_count
          rw [_poll_until_complete, if_pos htr]
          exact poll_loop_count_pos cfg attempts _ now (max_attempts cfg) 0 0 none now now hmax
        · intro _ hor
          have hs : s = "" := by
            rcases hor with h | h
            · exact absurd h (by simp)
            · simpa using h
          subst hs
          refine ⟨rfl, rfl, rfl, fun now => ?_⟩
          simp [_poll_until_complete, pyTruthy]
  · have hsub : _submit_batch (.response status body) batch_id file_count fsb ss dur
        = .ok ({ job_id := none
                 batch_id := batch_id
                 file_count := file_count
                 file_size_bytes := fsb * file_count
                 submit_start := ss
                 submit_end := ss + dur
                 submit_latency_ms := (ss + dur - ss) * 1000
                 job_start := ss + dur
                 job_end := ss + dur
                 job_duration_seconds := 0
                 poll_count := 0
                 final_state := "SUBMIT_FAILED"
                 success := false
                 error_message := some ("HTTP " ++ toString status) }, ss + dur) := by
      cases body <;>
        · simp only [_submit_batch]
          rw [if_pos h202]
    refine ⟨_, _, hsub, rfl, rfl, rfl, rfl, ?_, fun h => absurd h h202,
      fun h => absurd h h202, fun h => absurd h h202⟩
    intro _
    refine ⟨rfl, rfl, rfl, fun now => ?_⟩
    simp [_poll_until_complete, pyTruthy]

/-- Witness for the amended C3 at concrete inputs: a 500 response is
SUBMIT_FAILED, a 202 with unparseable body is PARSE_ERROR, a 202 with id
"j9" is SUBMITTED with that id. -/
theorem C3_classification_amended_witness :
    (_submit_batch (.response 500 (.parsed none)) 1 1 100 0 1).map (fun p => p.1.final_state)
      = .ok "SUBMIT_FAILED" ∧
    (_submit_batch (.response 202 (.unparseable "bad")) 1 1 100 0 1).map (fun p => p.1.final_state)
      = .ok "PARSE_ERROR" ∧
    (_submit_batch (.response 202 (.parsed (some "j9"))) 1 1 100 0 1).map (fun p => p.1.job_id)
      = .ok (some "j9") := by
  refine ⟨?_, ?_, ?_⟩
  · obtain ⟨r, c, hsub, _, _, _, _, hb1, _, _, _⟩ :=
      C3_classification_amended ⟨1, 1, 10, 5⟩ (fun _ => .transportError "x") 500 (.parsed none)
        1 1 100 0 1
    rw [hsub]
    simp only [Except.map]
    rw [(hb1 (by decide)).1]
  · obtain ⟨r, c, hsub, _, _, _, _, _, hb2, _, _⟩ :=
      C3_classification_amended ⟨1, 1, 10, 5⟩ (fun _ => .transportError "x") 202
        (.unparseable "bad") 1 1 100 0 1
    rw [hsub]
    simp only [Except.map]
    rw [(hb2 rfl "bad" rfl).1]
  · obtain ⟨r, c, hsub, _, _, _, _, _, _, hb3, _⟩ :=
      C3_classification_amended ⟨1, 1, 10, 5⟩ (fun _ => .transportError "x") 202
        (.parsed (some "j9")) 1 1 100 0 1
    rw [hsub]
    simp only [Except.map]
    rw [(hb3 rfl "j9" rfl (by decide)).2.1]

/-- Facts preserved and produced by the attempt loop: the identity and
submission fields of the job are untouched, the returned `job_end` equals
the returned clock, and the clock never goes backwards. -/
lemma poll_loop_facts (cfg : AsyncTestConfig) (attempts : Nat → PollAttempt)
    (jr : JobResult) (job_start : ℚ) :
    ∀ (fuel k poll_count : Nat) (ls : Option String) (lst now : ℚ),
      (poll_loop cfg attempts jr job_start fuel k poll_count ls lst now).1.batch_id
          = jr.batch_id ∧
      (poll_loop cfg attempts jr job_start fuel k poll_count ls lst now).1.submit_start
          = jr.submit_start ∧
      (poll_loop cfg attempts jr job_start fuel k poll_count ls lst now).1.submit_end
          = jr.submit_end ∧
      (poll_loop cfg attempts jr job_start fuel k poll_count ls lst now).1.job_end
          = (poll_loop cfg attempts jr job_start fuel k poll_count ls lst now).2 ∧
      now ≤ (poll_loop cfg attempts jr job_start fuel k poll_count ls lst now).2 := by
  intro fuel
  induction fuel with
  | zero => intro k pc ls lst now; simp [poll_loop]
  | succ n ih =>
    intro k pc ls lst now
    have hstep : ∀ (ls' : Option String) (lst' : ℚ),
        (poll_loop cfg attempts jr job_start n (k + 1) (pc + 1) ls' lst'
            (now + (cfg.poll_interval_seconds : ℚ))).1.batch_id = jr.batch_id ∧
        (poll_loop cfg attempts jr job_start n (k + 1) (pc + 1) ls' lst'
            (now + (cfg.poll_interval_seconds : ℚ))).1.submit_start = jr.submit_start ∧
        (poll_loop cfg attempts jr job_start n (k + 1) (pc + 1) ls' lst'
            (now + (cfg.poll_interval_seconds : ℚ))).1.submit_end = jr.submit_end ∧
        (poll_loop cfg attempts jr job_start n (k + 1) (pc + 1) ls' lst'
            (now + (cfg.poll_interval_seconds : ℚ))).1.job_end
          = (poll_loop cfg attempts jr job_start n (k + 1) (pc + 1) ls' lst'
            (now + (cfg.poll_interval_seconds : ℚ))).2 ∧
        now ≤ (poll_loop cfg attempts jr job_start n (k + 1) (pc + 1) ls' lst'
            (now + (cfg.poll_interval_seconds : ℚ))).2 := by
      intro ls' lst'
      obtain ⟨h1, h2, h3, h4, h5⟩ := ih (k + 1) (pc + 1) ls' lst'
        (now + (cfg.poll_interval_seconds : ℚ))
      exact ⟨h1, h2, h3, h4, le_trans (le_add_of_nonneg_right (by positivity)) h5⟩
    by_cases htr : transientAttempt (attempts k) = true
    · rw [poll_loop_transient_step cfg attempts jr job_start n k pc ls lst now htr]
      exact hstep ls lst
    · cases hA : attempts k with
      | transportError msg => rw [hA] at htr; simp [transientAttempt] at htr
      | response status body =>
        by_cases hs : status = 200
        · subst hs
          cases body with
          | unparseable => rw [hA] at htr; simp [transientAttempt] at htr
          | parsed st =>
            by_cases hterm : attemptTerminal (attempts k) = true
            · rw [hA] at hterm
              have hterm2 : pyTruthy st = true ∧
                  (pyLower (st.getD "") ∈ FINISHED_STATES ∨
                   pyLower (st.getD "") ∈ FAILED_STATES) := by
                simpa [attemptTerminal] using hterm
              by_cases hfin : pyLower (st.getD "") ∈ FINISHED_STATES
              · simp only [poll_loop, hA]
                rw [if_neg (by simp), if_pos hterm2.1, if_pos hfin]
                simp
              · have hfl : pyLower (st.getD "") ∈ FAILED_STATES := hterm2.2.resolve_left hfin
                simp only [poll_loop, hA]
                rw [if_neg (by simp), if_pos hterm2.1, if_neg hfin, if_pos hfl]
                simp
            · rw [poll_loop_observe_step cfg attempts jr job_start n k pc ls lst now st hA
                (by simpa using hterm)]
              exact hstep _ _
        · rw [hA] at htr; simp [transientAttempt, hs] at htr

/-- A submission that got an HTTP response (did not raise) always returns
a result. -/
lemma submit_batch_response_ok (status : Nat) (body : SubmitBody)
    (bid fc fsb : Nat) (ss dur : ℚ) :
    ∃ p, _submit_batch (.response status body) bid fc fsb ss dur = .ok p := by
  simp only [_submit_batch]
  by_cases h202 : status ≠ 202
  · rw [if_pos h202]
    exact ⟨_, rfl⟩
  · rw [if_neg h202]
    cases body with
    | parsed id => exact ⟨_, rfl⟩
    | unparseable msg => exact ⟨_, rfl⟩

/-- Facts about one submit-then-poll unit that returns: the result carries
the unit's batch id, starts its submission at the incoming clock, the
outgoing clock does not precede the incoming one, and the job-end and
submit-end instants do not exceed the outgoing clock. -/
lemma run_batch_unit_spec (cfg : AsyncTestConfig) (env : BatchEnv) (bid fc fsb : Nat)
    (clock : ℚ) (p : JobResult × ℚ)
    (h : _run_batch_with_polling cfg env bid fc fsb clock = .ok p)
    (hc : 0 ≤ clock) (hd : 0 ≤ env.submit_dur) :
    p.1.batch_id = bid ∧ p.1.submit_start = clock ∧ clock ≤ p.2 ∧
    p.1.job_end ≤ p.2 ∧ p.1.submit_end ≤ p.2 ∧ 0 ≤ p.2 := by
  cases hs : env.submit with
  | raised msg =>
    simp [_run_batch_with_polling, hs, _submit_batch] at h
  | response status body =>
    by_cases h202 : status = 202
    · subst h202
      cases body with
      | unparseable msg =>
        simp only [_run_batch_with_polling, _submit_batch, hs, ne_eq, not_true_eq_false,
          if_false, _poll_until_complete, pyTruthy, Bool.false_eq_true, Except.ok.injEq] at h
        subst h
        refine ⟨rfl, rfl, ?_, ?_, ?_, ?_⟩ <;> dsimp only
        · linarith
        · exact le_refl _
        · exact le_refl _
        · linarith
      | parsed id =>
        by_cases hid : pyTruthy id = true
        · simp only [_run_batch_with_polling, _submit_batch, hs, ne_eq, not_true_eq_false,
            if_false, _poll_until_complete, hid, if_true, Except.ok.injEq] at h
          subst h
          obtain ⟨hb, hss, hse, hje, hnl⟩ := poll_loop_facts cfg env.polls
            { job_id := id
              batch_id := bid
              file_count := fc
              file_size_bytes := fsb * fc
              submit_start := clock
              submit_end := clock + env.submit_dur
              submit_latency_ms := (clock + env.submit_dur - clock) * 1000
              job_start := clock + env.submit_dur
              job_end := 0
              job_duration_seconds := 0
              poll_count := 0
              final_state := "SUBMITTED"
              success := false
              error_message := none }
            (clock + env.submit_dur) (max_attempts cfg) 0 0 none (clock + env.submit_dur)
            (clock + env.submit_dur)
          refine ⟨hb, hss, ?_, le_of_eq hje, ?_, ?_⟩
          · linarith
          · rw [hse]
            dsimp only
            linarith
          · linarith
        · have hid' : pyTruthy id = false := by simpa using hid
          simp only [_run_batch_with_polling, _submit_batch, hs, ne_eq, not_true_eq_false,
            if_false, _poll_until_complete, hid', Bool.false_eq_true, Except.ok.injEq] at h
          subst h
          refine ⟨rfl, rfl, ?_, ?_, ?_, ?_⟩ <;> dsimp only
          · linarith
          · linarith
          · exact le_refl _
          · linarith
    · simp only [_run_batch_with_polling, _submit_batch, hs] at h
      rw [if_pos h202] at h
      simp only [_poll_until_complete, pyTruthy, Bool.false_eq_true, if_false,
        Except.ok.injEq] at h
      subst h
      refine ⟨rfl, rfl, ?_, ?_, ?_, ?_⟩ <;> dsimp only
      · linarith
      · exact le_refl _
      · exact le_refl _
      · linarith

/-- A benign environment: every submission is accepted with job id "j" in
1 second, and the first poll reports "finished". -/
def goodEnv : BatchEnv :=
  { submit := .response 202 (.parsed (some "j"))
    submit_dur := 1
    polls := fun _ => .response 200 (.parsed (some "finished")) }

/-- An environment in which batch 1's submission raises a transport
exception and every other batch behaves benignly. -/
def envsC1 : Nat → BatchEnv :=
  fun i =>
    if i = 1 then
      { submit := .raised "boom"
        submit_dur := 1
        polls := fun _ => .response 200 (.parsed (some "finished")) }
    else goodEnv

/-- "Batch i+1 does not start until batch i's unit is terminal": each
outcome's job-end and submit-end instants do not exceed the next
outcome's submission start. -/
def TerminalBefore (r next : JobResult) : Prop :=
  r.job_end ≤ next.submit_start ∧ r.submit_end ≤ next.submit_start

def Chain : List JobResult → Prop
  | [] => True
  | [_] => True
  | r :: next :: rest => TerminalBefore r next ∧ Chain (next :: rest)

lemma enumFrom_length : ∀ (bs : List (List String)) (i : Nat),
    (enumFrom i bs).length = bs.length := by
  intro bs
  induction bs with
  | nil => intro i; rfl
  | cons b tl ih => intro i; simp [enumFrom, ih]

lemma enumFrom_get? : ∀ (bs : List (List String)) (i j : Nat),
    (enumFrom i bs).get? j = (bs.get? j).map (fun b => (i + j, b)) := by
  intro bs
  induction bs with
  | nil => intro i j; simp [enumFrom]
  | cons b tl ih =>
    intro i j
    cases j with
    | zero => simp [enumFrom]
    | succ n =>
      simp only [enumFrom, List.get?_cons_succ]
      rw [ih (i + 1) n]
      cases htl : tl.get? n with
      | none => simp
      | some v =>
        show some (i + 1 + n, v) = some (i + (n + 1), v)
        refine congrArg some (Prod.ext ?_ rfl)
        omega

/-- One submit-then-poll unit returns a result whenever its submission got
an HTTP response (no exception was raised). -/
lemma run_batch_ok (cfg : AsyncTestConfig) (env : BatchEnv) (bid fc fsb : Nat)
    (clock : ℚ) (h : ∀ msg, env.submit ≠ SubmitOutcome.raised msg) :
    ∃ p, _run_batch_with_polling cfg env bid fc fsb clock = .ok p := by
  cases hs : env.submit with
  | raised msg => exact absurd hs (h msg)
  | response status body =>
    obtain ⟨p, hp⟩ := submit_batch_response_ok status body bid fc fsb clock env.submit_dur
    refine ⟨_poll_until_complete cfg env.polls p.1 p.2, ?_⟩
    unfold _run_batch_with_polling
    rw [hs, hp]

/-- `asyncio.gather` without `return_exceptions`, modelled: if no unit's
submission raises, the collected list pairs each position with its own
unit's result. -/
lemma run_units_par_ok (cfg : AsyncTestConfig) (envs : Nat → BatchEnv) (fsb : Nat) :
    ∀ (lst : List (Nat × List String)) (clock : ℚ),
      (∀ pr ∈ lst, ∀ msg, (envs pr.1).submit ≠ SubmitOutcome.raised msg) →
      ∃ rs, run_units_par cfg envs fsb lst clock = .ok rs ∧
        rs.length = lst.length ∧
        ∀ (j : Nat) (pr : Nat × List String), lst.get? j = some pr →
          ∃ p, _run_batch_with_polling cfg (envs pr.1) pr.1 pr.2.length fsb clock = .ok p ∧
            rs.get? j = some p.1 := by
  intro lst
  induction lst with
  | nil =>
    intro clock _
    exact ⟨[], rfl, rfl, fun j pr hj => by simp at hj⟩
  | cons hd tl ih =>
    intro clock h
    obtain ⟨bid, batch⟩ := hd
    obtain ⟨p, hp⟩ := run_batch_ok cfg (envs bid) bid batch.length fsb clock
      (h (bid, batch) (List.mem_cons_self _ _))
    obtain ⟨rs, hrs, hlen, hget⟩ := ih clock (fun pr hpr => h pr (List.mem_cons_of_mem _ hpr))
    refine ⟨p.1 :: rs, ?_, by simp [hlen], ?_⟩
    · simp only [run_units_par]
      rw [hp, hrs]
    · intro j pr hj
      cases j with
      | zero =>
        simp only [List.get?_cons_zero, Option.some.injEq] at hj
        subst hj
        exact ⟨p, hp, rfl⟩
      | succ n =>
        simp only [List.get?_cons_succ] at hj
        obtain ⟨q, hq1, hq2⟩ := hget n pr hj
        exact ⟨q, hq1, by simpa using hq2⟩

/-- Counterexample to C1 as stated: in bounded-parallel mode (concurrency
2, two one-file batches), a transport exception raised during batch 1's
submission is NOT converted into a SUBMIT_FAILED outcome for that unit:
`_submit_batch` has no handler and `asyncio.gather` is used without
`return_exceptions`, so the exception propagates out of `run` and no
collection at all is returned — batch 2's JobResult is lost with it. -/
theorem C1_transport_exception_aborts_run :
    AsyncTester_run ⟨1, 2, 10, 5⟩ envsC1 ["a", "b"] 100 0 = Except.error "boom" := by
  rfl

/-- C1 amended: faults that arrive as HTTP responses (non-success status,
unparseable body) are contained to their own unit's outcome — when no
batch's submission raises, the bounded-parallel run returns one JobResult
per batch, in batch order, and the entry at position j is exactly the
result of running unit j+1 against its own environment slice, independent
of every sibling. A transport exception during any submission, however,
propagates and aborts the whole run (see the counterexample). -/
theorem C1_fault_containment_amended (cfg : AsyncTestConfig) (envs : Nat → BatchEnv)
    (samples : List String) (fsb : Nat) (clock0 : ℚ)
    (hpar : cfg.is_sequential = false)
    (hok : ∀ i msg, (envs i).submit ≠ SubmitOutcome.raised msg) :
    ∃ rs : List JobResult,
      AsyncTester_run cfg envs samples fsb clock0 = .ok rs ∧
      rs.length = (mkBatches cfg.files_per_request samples).length ∧
      ∀ (j : Nat) (batch : List String),
        (mkBatches cfg.files_per_request samples).get? j = some batch →
        ∃ p, _run_batch_with_polling cfg (envs (j + 1)) (j + 1) batch.length fsb clock0
            = .ok p ∧ rs.get? j = some p.1 := by
  obtain ⟨rs, hrs, hlen, hget⟩ := run_units_par_ok cfg envs fsb
    (enumFrom 1 (mkBatches cfg.files_per_request samples)) clock0
    (fun pr _ msg => hok pr.1 msg)
  refine ⟨rs, ?_, by rw [hlen, enumFrom_length], ?_⟩
  · simp only [AsyncTester_run, hpar, Bool.false_eq_true, if_false]
    exact hrs
  · intro j batch hj
    have hj' : (enumFrom 1 (mkBatches cfg.files_per_request samples)).get? j
        = some (1 + j, batch) := by
      rw [enumFrom_get?, hj]
      rfl
    obtain ⟨p, hp1, hp2⟩ := hget j (1 + j, batch) hj'
    refine ⟨p, ?_, hp2⟩
    rwa [Nat.add_comm 1 j] at hp1

/-- Witness for the amended C1: two batches in parallel mode against a
benign environment produce exactly two results. -/
theorem C1_fault_containment_amended_witness :
    (AsyncTester_run ⟨1, 2, 10, 5⟩ (fun _ => goodEnv) ["a", "b"] 100 0).map
      (fun rs => rs.length) = .ok 2 := by
  obtain ⟨rs, hrun, hlen, _⟩ := C1_fault_containment_amended ⟨1, 2, 10, 5⟩ (fun _ => goodEnv)
    ["a", "b"] 100 0 (by decide) (fun i msg => by simp [goodEnv])
  rw [hrun]
  simp only [Except.map]
  rw [hlen]
  rfl

/-- Sequential scheduling, full specification: given nonnegative start
clock and submission durations, a successful sequential run returns one
result per listed batch, each carrying its unit's batch id, chained so
that every unit is terminal before the next one's submission starts; the
clock only moves forward and the first result starts at the incoming
clock. -/
lemma run_units_seq_spec (cfg : AsyncTestConfig) (envs : Nat → BatchEnv) (fsb : Nat)
    (hdur : ∀ b, 0 ≤ (envs b).submit_dur) :
    ∀ (lst : List (Nat × List String)) (clock : ℚ) (rs : List JobResult) (c' : ℚ),
      run_units_seq cfg envs fsb lst clock = .ok (rs, c') → 0 ≤ clock →
      rs.length = lst.length ∧
      (∀ (j : Nat) (pr : Nat × List String), lst.get? j = some pr →
        ∃ r, rs.get? j = some r ∧ r.batch_id = pr.1) ∧
      Chain rs ∧ clock ≤ c' ∧ 0 ≤ c' ∧
      (∀ hne : rs ≠ [], (rs.head hne).submit_start = clock) := by
  intro lst
  induction lst with
  | nil =>
    intro clock rs c' h hc
    simp only [run_units_seq, Except.ok.injEq, Prod.mk.injEq] at h
    obtain ⟨rfl, rfl⟩ := h
    exact ⟨rfl, fun j pr hj => by simp at hj, trivial, le_refl _, hc,
      fun hne => absurd rfl hne⟩
  | cons hd tl ih =>
    intro clock rs c' h hc
    obtain ⟨bid, batch⟩ := hd
    simp only [run_units_seq] at h
    cases hu : _run_batch_with_polling cfg (envs bid) bid batch.length fsb clock with
    | error e => rw [hu] at h; simp at h
    | ok p =>
      obtain ⟨r, c1⟩ := p
      rw [hu] at h
      dsimp only at h
      cases hrest : run_units_seq cfg envs fsb tl c1 with
      | error e => rw [hrest] at h; simp at h
      | ok q =>
        obtain ⟨rs', c2⟩ := q
        rw [hrest] at h
        simp only [Except.ok.injEq, Prod.mk.injEq] at h
        obtain ⟨rfl, rfl⟩ := h
        obtain ⟨hb, hss, hcle, hje, hse, hc1⟩ :=
          run_batch_unit_spec cfg (envs bid) bid batch.length fsb clock (r, c1) hu hc (hdur bid)
        obtain ⟨hlen, hids, hchain, hcc, hc2, hhead⟩ := ih c1 rs' c2 hrest hc1
        refine ⟨by simp [hlen], ?_, ?_, le_trans hcle hcc, hc2, fun hne => hss⟩
        · intro j pr hj
          cases j with
          | zero =>
            simp only [List.get?_cons_zero, Option.some.injEq] at hj
            subst hj
            exact ⟨r, rfl, hb⟩
          | succ n =>
            simp only [List.get?_cons_succ] at hj
            obtain ⟨r', h1, h2⟩ := hids n pr hj
            exact ⟨r', by simpa using h1, h2⟩
        · cases rs' with
          | nil => trivial
          | cons r2 rest2 =>
            have h2start : r2.submit_start = c1 := hhead (by simp)
            exact ⟨⟨by rw [h2start]; exact hje, by rw [h2start]; exact hse⟩, hchain⟩

/-- C8: in sequential mode a successful run returns exactly one outcome
per batch in batch order — the j-th outcome carries batch id j+1 — and
batch i+1's submission does not start until batch i's unit is terminal
(its job-end and submit-end instants precede the next submission start). -/
theorem C8_sequential_order (cfg : AsyncTestConfig) (envs : Nat → BatchEnv)
    (samples : List String) (fsb : Nat) (clock0 : ℚ) (rs : List JobResult)
    (hseq : cfg.is_sequential = true)
    (hclock : 0 ≤ clock0) (hdur : ∀ b, 0 ≤ (envs b).submit_dur)
    (hrun : AsyncTester_run cfg envs samples fsb clock0 = .ok rs) :
    rs.length = (mkBatches cfg.files_per_request samples).length ∧
    (∀ (j : Nat) (r : JobResult), rs.get? j = some r → r.batch_id = j + 1) ∧
    Chain rs := by
  simp only [AsyncTester_run, hseq, if_true] at hrun
  cases hs : run_units_seq cfg envs fsb
      (enumFrom 1 (mkBatches cfg.files_per_request samples)) clock0 with
  | error e => rw [hs] at hrun; simp at hrun
  | ok q =>
    obtain ⟨rs0, c'⟩ := q
    rw [hs] at hrun
    simp only [Except.ok.injEq] at hrun
    subst hrun
    obtain ⟨hlen, hids, hchain, _, _, _⟩ :=
      run_units_seq_spec cfg envs fsb hdur _ clock0 rs0 c' hs hclock
    refine ⟨by rw [hlen, enumFrom_length], ?_, hchain⟩
    intro j r hj
    have hjlt : j < rs0.length := by
      have := List.get?_eq_some.mp hj
      exact this.1
    have hjb : j < (mkBatches cfg.files_per_request samples).length := by
      rw [hlen, enumFrom_length] at hjlt
      exact hjlt
    have hbj : (mkBatches cfg.files_per_request samples).get? j
        = some ((mkBatches cfg.files_per_request samples).get ⟨j, hjb⟩) :=
      List.get?_eq_get hjb
    have hej : (enumFrom 1 (mkBatches cfg.files_per_request samples)).get? j
        = some (1 + j, (mkBatches cfg.files_per_request samples).get ⟨j, hjb⟩) := by
      rw [enumFrom_get?, hbj]
      rfl
    obtain ⟨r', h1, h2⟩ := hids j _ hej
    rw [hj] at h1
    simp only [Option.some.injEq] at h1
    subst h1
    rw [h2, Nat.add_comm]

/-- Witness for C8: a sequential run of three one-file batches against a
benign environment yields outcomes with batch ids exactly [1, 2, 3]. -/
theorem C8_sequential_order_witness :
    (AsyncTester_run ⟨1, 1, 10, 5⟩ (fun _ => goodEnv) ["a", "b", "c"] 100 0).map
      (fun rs => rs.map (·.batch_id)) = .ok [1, 2, 3] := by
  obtain ⟨rs, hrs⟩ : ∃ rs,
      AsyncTester_run ⟨1, 1, 10, 5⟩ (fun _ => goodEnv) ["a", "b", "c"] 100 0 = .ok rs :=
    ⟨_, rfl⟩
  have h := C8_sequential_order ⟨1, 1, 10, 5⟩ (fun _ => goodEnv) ["a", "b", "c"] 100 0 rs rfl
    (by norm_num) (fun b => by norm_num [goodEnv]) hrs
  rw [hrs]
  simp only [Except.map]
  have hlen : rs.length = 3 := by rw [h.1]; rfl
  cases rs with
  | nil => simp at hlen
  | cons a t1 =>
    cases t1 with
    | nil => simp at hlen
    | cons b t2 =>
      cases t2 with
      | nil => simp at hlen
      | cons c t3 =>
        cases t3 with
        | cons d t4 => simp at hlen
        | nil =>
          have h1 := h.2.1 0 a rfl
          have h2 := h.2.1 1 b rfl
          have h3 := h.2.1 2 c rfl
          simp [h1, h2, h3]

/-- Whenever the attempt loop reports success, the final state it recorded
is (case-insensitively) one of the finished labels. -/
lemma poll_loop_success_finished (cfg : AsyncTestConfig) (attempts : Nat → PollAttempt)
    (jr : JobResult) (job_start : ℚ) :
    ∀ (fuel k poll_count : Nat) (ls : Option String) (lst now : ℚ),
      (poll_loop cfg attempts jr job_start fuel k poll_count ls lst now).1.success = true →
      pyLower (poll_loop cfg attempts jr job_start fuel k poll_count ls lst now).1.final_state
        ∈ FINISHED_STATES := by
  intro fuel
  induction fuel with
  | zero => intro k pc ls lst now hsucc; simp [poll_loop] at hsucc
  | succ n ih =>
    intro k pc ls lst now
    by_cases htr : transientAttempt (attempts k) = true
    · rw [poll_loop_transient_step cfg attempts jr job_start n k pc ls lst now htr]
      exact ih (k + 1) (pc + 1) ls lst _
    · cases hA : attempts k with
      | transportError msg => rw [hA] at htr; simp [transientAttempt] at htr
      | response status body =>
        by_cases hs : status = 200
        · subst hs
          cases body with
          | unparseable => rw [hA] at htr; simp [transientAttempt] at htr
          | parsed st =>
            by_cases hterm : attemptTerminal (attempts k) = true
            · rw [hA] at hterm
              have hterm2 : pyTruthy st = true ∧
                  (pyLower (st.getD "") ∈ FINISHED_STATES ∨
                   pyLower (st.getD "") ∈ FAILED_STATES) := by
                simpa [attemptTerminal] using hterm
              by_cases hfin : pyLower (st.getD "") ∈ FINISHED_STATES
              · simp only [poll_loop, hA]
                rw [if_neg (by simp), if_pos hterm2.1, if_pos hfin]
                intro _
                exact hfin
              · have hfl : pyLower (st.getD "") ∈ FAILED_STATES := hterm2.2.resolve_left hfin
                simp only [poll_loop, hA]
                rw [if_neg (by simp), if_pos hterm2.1, if_neg hfin, if_pos hfl]
                intro hsucc
                simp at hsucc
            · rw [poll_loop_observe_step cfg attempts jr job_start n k pc ls lst now st hA
                (by simpa using hterm)]
              exact ih (k + 1) (pc + 1) _ _ _
        · rw [hA] at htr; simp [transientAttempt, hs] at htr

/-- No unit the pipeline produces is both successful and in the timeout
state: a successful outcome's state is one of the finished labels, and
"TIMEOUT" (lowercased "timeout") is not among them.  This discharges the
sole hypothesis of the C5 law for every collection the pipeline can ever
hand to the aggregator. -/
lemma run_batch_invariant (cfg : AsyncTestConfig) (env : BatchEnv) (bid fc fsb : Nat)
    (clock : ℚ) (p : JobResult × ℚ)
    (h : _run_batch_with_polling cfg env bid fc fsb clock = .ok p) :
    p.1.success = true → p.1.final_state ≠ "TIMEOUT" := by
  intro hsucc
  cases hs : env.submit with
  | raised msg =>
    simp [_run_batch_with_polling, hs, _submit_batch] at h
  | response status body =>
    by_cases h202 : status = 202
    · subst h202
      cases body with
      | unparseable msg =>
        simp only [_run_batch_with_polling, _submit_batch, hs, ne_eq, not_true_eq_false,
          if_false, _poll_until_complete, pyTruthy, Bool.false_eq_true, Except.ok.injEq] at h
        subst h
        simp at hsucc
      | parsed id =>
        by_cases hid : pyTruthy id = true
        · simp only [_run_batch_with_polling, _submit_batch, hs, ne_eq, not_true_eq_false,
            if_false, _poll_until_complete, hid, if_true, Except.ok.injEq] at h
          subst h
          have hfin := poll_loop_success_finished cfg env.polls _ (clock + env.submit_dur)
            (max_attempts cfg) 0 0 none (clock + env.submit_dur) (clock + env.submit_dur) hsucc
          intro hT
          rw [hT] at hfin
          revert hfin
          decide
        · have hid' : pyTruthy id = false := by simpa using hid
          simp only [_run_batch_with_polling, _submit_batch, hs, ne_eq, not_true_eq_false,
            if_false, _poll_until_complete, hid', Bool.false_eq_true, Except.ok.injEq] at h
          subst h
          simp at hsucc
    · simp only [_run_batch_with_polling, _submit_batch, hs] at h
      rw [if_pos h202] at h
      simp only [_poll_until_complete, pyTruthy, Bool.false_eq_true, if_false,
        Except.ok.injEq] at h
      subst h
      simp at hsucc

/-- Every member of a bounded-parallel result list is the result of some
submit-then-poll unit. -/
lemma run_units_par_from_units (cfg : AsyncTestConfig) (envs : Nat → BatchEnv) (fsb : Nat) :
    ∀ (lst : List (Nat × List String)) (clock : ℚ) (rs : List JobResult),
      run_units_par cfg envs fsb lst clock = .ok rs →
      ∀ r ∈ rs, ∃ (bid fc : Nat) (p : JobResult × ℚ),
        _run_batch_with_polling cfg (envs bid) bid fc fsb clock = .ok p ∧ r = p.1 := by
  intro lst
  induction lst with
  | nil =>
    intro clock rs h r hr
    simp only [run_units_par, Except.ok.injEq] at h
    subst h
    simp at hr
  | cons hd tl ih =>
    intro clock rs h r hr
    obtain ⟨bid, batch⟩ := hd
    simp only [run_units_par] at h
    cases hu : _run_batch_with_polling cfg (envs bid) bid batch.length fsb clock with
    | error e => rw [hu] at h; simp at h
    | ok p =>
      rw [hu] at h
      dsimp only at h
      cases hrest : run_units_par cfg envs fsb tl clock with
      | error e => rw [hrest] at h; simp at h
      | ok rs' =>
        rw [hrest] at h
        simp only [Except.ok.injEq] at h
        subst h
        rcases List.mem_cons.mp hr with rfl | hr'
        · exact ⟨bid, batch.length, p, hu, rfl⟩
        · exact ih clock rs' hrest r hr'

/-- Every member of a sequential result list is the result of some
submit-then-poll unit (at some intermediate clock). -/
lemma run_units_seq_from_units (cfg : AsyncTestConfig) (envs : Nat → BatchEnv) (fsb : Nat) :
    ∀ (lst : List (Nat × List String)) (clock : ℚ) (rs : List JobResult) (c' : ℚ),
      run_units_seq cfg envs fsb lst clock = .ok (rs, c') →
      ∀ r ∈ rs, ∃ (bid fc : Nat) (ck : ℚ) (p : JobResult × ℚ),
        _run_batch_with_polling cfg (envs bid) bid fc fsb ck = .ok p ∧ r = p.1 := by
  intro lst
  induction lst with
  | nil =>
    intro clock rs c' h r hr
    simp only [run_units_seq, Except.ok.injEq, Prod.mk.injEq] at h
    obtain ⟨rfl, rfl⟩ := h
    simp at hr
  | cons hd tl ih =>
    intro clock rs c' h r hr
    obtain ⟨bid, batch⟩ := hd
    simp only [run_units_seq] at h
    cases hu : _run_batch_with_polling cfg (envs bid) bid batch.length fsb clock with
    | error e => rw [hu] at h; simp at h
    | ok p =>
      obtain ⟨r0, c1⟩ := p
      rw [hu] at h
      dsimp only at h
      cases hrest : run_units_seq cfg envs fsb tl c1 with
      | error e => rw [hrest] at h; simp at h
      | ok q =>
        obtain ⟨rs', c2⟩ := q
        rw [hrest] at h
        simp only [Except.ok.injEq, Prod.mk.injEq] at h
        obtain ⟨rfl, rfl⟩ := h
        rcases List.mem_cons.mp hr with rfl | hr'
        · exact ⟨bid, batch.length, clock, (r, c1), hu, rfl⟩
        · exact ih c1 rs' c2 hrest r hr'

/-- Every collection `AsyncTester.run` can hand to `_calculate_results`
satisfies the C5 hypothesis: no outcome is both successful and in the
timeout state. -/
lemma AsyncTester_run_invariant (cfg : AsyncTestConfig) (envs : Nat → BatchEnv)
    (samples : List String) (fsb : Nat) (clock0 : ℚ) (rs : List JobResult)
    (h : AsyncTester_run cfg envs samples fsb clock0 = .ok rs) :
    ∀ r ∈ rs, r.success = true → r.final_state ≠ "TIMEOUT" := by
  intro r hr
  cases hseq : cfg.is_sequential with
  | false =>
    simp only [AsyncTester_run, hseq, Bool.false_eq_true, if_false] at h
    obtain ⟨bid, fc, p, hp, rfl⟩ := run_units_par_from_units cfg envs fsb _ clock0 rs h r hr
    exact run_batch_invariant cfg (envs bid) bid fc fsb clock0 p hp
  | true =>
    simp only [AsyncTester_run, hseq, if_true] at h
    cases hs : run_units_seq cfg envs fsb
        (enumFrom 1 (mkBatches cfg.files_per_request samples)) clock0 with
    | error e => rw [hs] at h; simp at h
    | ok q =>
      obtain ⟨rs0, c'⟩ := q
      rw [hs] at h
      simp only [Except.ok.injEq] at h
      subst h
      obtain ⟨bid, fc, ck, p, hp, rfl⟩ :=
        run_units_seq_from_units cfg envs fsb _ clock0 rs0 c' hs r hr
      exact run_batch_invariant cfg (envs bid) bid fc fsb ck p hp
